import Mathlib

/-! HotSpotManager (src/script.js): shallow embedding.

The class `HotSpotManager` of `src/script.js` keeps a list of hotspot shapes
drawn over an image, a linear undo/redo history of snapshots of that list, the
current letterbox placement of the image on the canvas, and writes the shape
list to `localStorage` after every change.

The embedding is state passing: every method of the class is a function on the
record `HotSpotManager`.  Methods that can throw (`undo` and `redo` spread
`this.history[this.currentState]`, which throws a `TypeError` when the index is
out of range) return an `Option`.

Numbers are JavaScript numbers without rounding: exact rationals extended with
`Infinity`, `-Infinity` and `NaN` (type `JSNum`).  The operators of `JSNum` do not
round, and the state machine is written with them; the rounding of IEEE doubles
is `round64`, and `drawImagePlacement64` is the placement of `drawImage` as the
doubles the engine stores.  The sign of zero is not modelled; a zero is always `+0`.
-/

namespace HotSpot

/-! ## JavaScript numbers -/

/-- A JavaScript number: a finite value (kept exact, as a rational), one of the
two infinities, or `NaN`. -/
inductive JSNum where
  | fin (q : ℚ)
  | posInf
  | negInf
  | nan
deriving DecidableEq

namespace JSNum

/-- Unary minus. -/
def neg : JSNum → JSNum
  | fin q => fin (-q)
  | posInf => negInf
  | negInf => posInf
  | nan => nan

/-- The operator `+` on numbers. -/
def add : JSNum → JSNum → JSNum
  | fin a, fin b => fin (a + b)
  | fin _, posInf => posInf
  | fin _, negInf => negInf
  | posInf, fin _ => posInf
  | posInf, posInf => posInf
  | posInf, negInf => nan
  | negInf, fin _ => negInf
  | negInf, negInf => negInf
  | negInf, posInf => nan
  | nan, _ => nan
  | _, nan => nan

/-- The operator `-` on numbers. -/
def sub (a b : JSNum) : JSNum := add a (neg b)

/-- The operator `*` on numbers. -/
def mul : JSNum → JSNum → JSNum
  | fin a, fin b => fin (a * b)
  | fin a, posInf => if a = 0 then nan else if 0 < a then posInf else negInf
  | fin a, negInf => if a = 0 then nan else if 0 < a then negInf else posInf
  | posInf, fin b => if b = 0 then nan else if 0 < b then posInf else negInf
  | negInf, fin b => if b = 0 then nan else if 0 < b then negInf else posInf
  | posInf, posInf => posInf
  | posInf, negInf => negInf
  | negInf, posInf => negInf
  | negInf, negInf => posInf
  | nan, _ => nan
  | _, nan => nan

/-- The operator `/` on numbers.  A finite non-zero value divided by zero is an
infinity, `0 / 0` is `NaN`, a finite value divided by an infinity is zero. -/
def div : JSNum → JSNum → JSNum
  | fin a, fin b =>
    if b = 0 then (if a = 0 then nan else if 0 < a then posInf else negInf)
    else fin (a / b)
  | fin _, posInf => fin 0
  | fin _, negInf => fin 0
  | posInf, fin b => if 0 ≤ b then posInf else negInf
  | negInf, fin b => if 0 ≤ b then negInf else posInf
  | posInf, posInf => nan
  | posInf, negInf => nan
  | negInf, posInf => nan
  | negInf, negInf => nan
  | nan, _ => nan
  | _, nan => nan

/-- The comparison `a < b`; every comparison with `NaN` is false. -/
def lt : JSNum → JSNum → Bool
  | fin a, fin b => decide (a < b)
  | fin _, posInf => true
  | negInf, fin _ => true
  | negInf, posInf => true
  | _, _ => false

/-- The comparison `a <= b`; every comparison with `NaN` is false. -/
def le : JSNum → JSNum → Bool
  | fin a, fin b => decide (a ≤ b)
  | fin _, posInf => true
  | negInf, fin _ => true
  | negInf, posInf => true
  | posInf, posInf => true
  | negInf, negInf => true
  | _, _ => false

/-- The comparison `a > b`. -/
def gt (a b : JSNum) : Bool := lt b a

instance : Add JSNum := ⟨add⟩
instance : Sub JSNum := ⟨sub⟩
instance : Mul JSNum := ⟨mul⟩
instance : Div JSNum := ⟨div⟩
instance : Neg JSNum := ⟨neg⟩

/-- A non-negative integer (a DOM `unsigned long`, an array length) as a number. -/
def ofNat (n : Nat) : JSNum := fin (n : ℚ)

end JSNum

/-! ## Data model -/

/-- A shape object `{type, startX, startY, endX, endY, index}`; the coordinates
are in image space. -/
structure Shape where
  type : String
  startX : JSNum
  startY : JSNum
  endX : JSNum
  endY : JSNum
  index : Nat
deriving DecidableEq

/-- A pointer event as `getMousePos` reads it: `e.clientX`, `e.clientY`, and the
result of `this.canvas.getBoundingClientRect()` at the time of the event. -/
structure PointerEvt where
  clientX : JSNum
  clientY : JSNum
  rectLeft : JSNum
  rectTop : JSNum
  rectWidth : JSNum
  rectHeight : JSNum
deriving DecidableEq

/-- The fields of a `HotSpotManager` instance, together with what it reads from
and writes to its collaborators: the pixel size of the canvas, the size of
`this.image`, the `disabled` flags of the two buttons, the sequence of values
written to `localStorage` under `savedShapes` (oldest first), and the arguments
of the `drawShape` calls made since the canvas was last cleared. -/
structure HotSpotManager where
  canvasWidth : Nat
  canvasHeight : Nat
  imageWidth : Nat
  imageHeight : Nat
  undoBtnDisabled : Bool
  redoBtnDisabled : Bool
  drawingEnabled : Bool
  isDrawing : Bool
  startX : JSNum
  startY : JSNum
  selectedShape : String
  shapes : List Shape
  imageOffsetX : JSNum
  imageOffsetY : JSNum
  imageScale : JSNum
  history : List (List Shape)
  currentState : Int
  opacity : JSNum
  savedShapes : List (List Shape)
  painted : List Shape
deriving DecidableEq

/-- The state the constructor leaves (lines 2-28): `new Image()` has width and
height 0.  The canvas size and the initial `disabled` flags of the buttons come
from the page. -/
def constructor (canvasWidth canvasHeight : Nat) (undoBtnDisabled redoBtnDisabled : Bool) :
    HotSpotManager :=
  { canvasWidth := canvasWidth
    canvasHeight := canvasHeight
    imageWidth := 0
    imageHeight := 0
    undoBtnDisabled := undoBtnDisabled
    redoBtnDisabled := redoBtnDisabled
    drawingEnabled := false
    isDrawing := false
    startX := JSNum.fin 0
    startY := JSNum.fin 0
    selectedShape := "rectangle"
    shapes := []
    imageOffsetX := JSNum.fin 0
    imageOffsetY := JSNum.fin 0
    imageScale := JSNum.fin 1
    history := [[]]
    currentState := 0
    opacity := JSNum.fin 1
    savedShapes := []
    painted := [] }

/-! ## Geometry -/

/-- The values `drawImage` computes from the image and canvas sizes. -/
structure Placement where
  drawWidth : JSNum
  drawHeight : JSNum
  offsetX : JSNum
  offsetY : JSNum
  scale : JSNum
deriving DecidableEq

/-- The placement computed by `drawImage` (lines 67-88), as a function of
`this.image.width`, `this.image.height`, `this.canvas.width` and
`this.canvas.height`, in exact arithmetic: no operation rounds.  The same lines with
every result rounded to a double are `drawImagePlacement64`. -/
def drawImagePlacement (imageWidth imageHeight canvasWidth canvasHeight : JSNum) : Placement :=
  let imageAspect := imageWidth / imageHeight
  let canvasAspect := canvasWidth / canvasHeight
  if JSNum.gt imageAspect canvasAspect then
    let drawWidth := canvasWidth
    let drawHeight := canvasWidth / imageAspect
    { drawWidth := drawWidth
      drawHeight := drawHeight
      offsetX := JSNum.fin 0
      offsetY := (canvasHeight - drawHeight) / JSNum.fin 2
      scale := drawWidth / imageWidth }
  else
    let drawHeight := canvasHeight
    let drawWidth := canvasHeight * imageAspect
    { drawWidth := drawWidth
      drawHeight := drawHeight
      offsetX := (canvasWidth - drawWidth) / JSNum.fin 2
      offsetY := JSNum.fin 0
      scale := drawWidth / imageWidth }

/-- The method `drawImage` (lines 66-94): stores the placement, clears the canvas and
draws every shape of `this.shapes`.  This is the state the method leaves when it
returns; the calls each `drawShape` makes, and whether its loops end, are given by
`drawShapeCalls` and `drawShapesCalls`. -/
def drawImage (s : HotSpotManager) : HotSpotManager :=
  let p := drawImagePlacement (JSNum.ofNat s.imageWidth) (JSNum.ofNat s.imageHeight)
    (JSNum.ofNat s.canvasWidth) (JSNum.ofNat s.canvasHeight)
  { s with
    imageOffsetX := p.offsetX
    imageOffsetY := p.offsetY
    imageScale := p.scale
    painted := s.shapes }

/-- A point `{x, y}`. -/
structure Point where
  x : JSNum
  y : JSNum
deriving DecidableEq

/-- The method `getMousePos` (lines 96-105): client coordinates to canvas pixels. -/
def getMousePos (s : HotSpotManager) (e : PointerEvt) : Point :=
  let scaleX := JSNum.ofNat s.canvasWidth / e.rectWidth
  let scaleY := JSNum.ofNat s.canvasHeight / e.rectHeight
  { x := (e.clientX - e.rectLeft) * scaleX
    y := (e.clientY - e.rectTop) * scaleY }

/-- Canvas pixels to image space, the expression `(pos.x - this.imageOffsetX) /
this.imageScale` of `startDrawing`, `draw` and `stopDrawing`, on one axis. -/
def screenToImage (v offset scale : JSNum) : JSNum := (v - offset) / scale

/-- Image space to canvas pixels, the expression `shape.startX * this.imageScale +
this.imageOffsetX` of `drawShape`, on one axis. -/
def imageToScreen (v offset scale : JSNum) : JSNum := v * scale + offset

/-- The screen-space box `drawShape` computes for a shape (lines 165-168). -/
structure ScreenBox where
  startX : JSNum
  startY : JSNum
  width : JSNum
  height : JSNum
deriving DecidableEq

/-- The first four constants of `drawShape` (lines 165-168). -/
def drawShapeBox (s : HotSpotManager) (shape : Shape) : ScreenBox :=
  { startX := imageToScreen shape.startX s.imageOffsetX s.imageScale
    startY := imageToScreen shape.startY s.imageOffsetY s.imageScale
    width := (shape.endX - shape.startX) * s.imageScale
    height := (shape.endY - shape.startY) * s.imageScale }

/-- The method `drawShape` as far as the state records it: the shape is added to
what is painted on the canvas. -/
def drawShape (s : HotSpotManager) (shape : Shape) : HotSpotManager :=
  { s with painted := s.painted ++ [shape] }

/-! ## History and persistence -/

/-- The renumbering `shapes.map((shape, index) => (\x7b...shape, index: index + 1\x7d))`
with the array index starting at `k`. -/
def renumberFrom : Nat → List Shape → List Shape
  | _, [] => []
  | k, shape :: rest => { shape with index := k + 1 } :: renumberFrom (k + 1) rest

/-- The renumbering of `addToHistory` (lines 290-293) and `saveShapes` (lines 333-336). -/
def renumber (shapes : List Shape) : List Shape := renumberFrom 0 shapes

/-- The array method `slice(0, end)`: a negative `end` counts from the end of the
array, and the bounds are clamped to the array. -/
def slice0 {α : Type} (xs : List α) (e : Int) : List α :=
  if e < 0 then xs.take ((xs.length : Int) + e).toNat else xs.take e.toNat

/-- The array read `xs[i]`: `undefined` (here `none`) outside the array. -/
def arrayGet {α : Type} (xs : List α) (i : Int) : Option α :=
  if 0 ≤ i then xs[i.toNat]? else none

/-- The method `updateButtonStates` (lines 327-330). -/
def updateButtonStates (s : HotSpotManager) : HotSpotManager :=
  { s with
    undoBtnDisabled := decide (s.currentState < 0)
    redoBtnDisabled := decide (s.currentState ≥ (s.history.length : Int) - 1) }

/-- The method `saveShapes` (lines 332-343): the renumbered `this.shapes` is written
to `localStorage`. -/
def saveShapes (s : HotSpotManager) : HotSpotManager :=
  { s with savedShapes := s.savedShapes ++ [renumber s.shapes] }

/-- The method `addToHistory` (lines 289-305). -/
def addToHistory (s : HotSpotManager) (shapes : List Shape) : HotSpotManager :=
  let shapesWithIndices := renumber shapes
  let s1 : HotSpotManager :=
    if s.currentState = -1 ∧ s.history.length = 0 then
      { s with history := s.history ++ [[]], currentState := s.currentState + 1 }
    else s
  let s2 : HotSpotManager := { s1 with history := slice0 s1.history (s1.currentState + 1) }
  let s3 : HotSpotManager := { s2 with history := s2.history ++ [shapesWithIndices] }
  let s4 : HotSpotManager := { s3 with currentState := s3.currentState + 1 }
  saveShapes (updateButtonStates s4)

/-- The method `undo` (lines 307-315); `none` is the `TypeError` of spreading
`undefined`. -/
def undo (s : HotSpotManager) : Option HotSpotManager :=
  if 0 ≤ s.currentState then
    let s1 : HotSpotManager := { s with currentState := s.currentState - 1 }
    if 0 ≤ s1.currentState then
      match arrayGet s1.history s1.currentState with
      | none => none
      | some snapshot =>
        some (saveShapes (updateButtonStates (drawImage { s1 with shapes := snapshot })))
    else
      some (saveShapes (updateButtonStates (drawImage { s1 with shapes := [] })))
  else some s

/-- The method `redo` (lines 317-325); `none` is the `TypeError` of spreading
`undefined`. -/
def redo (s : HotSpotManager) : Option HotSpotManager :=
  if s.currentState < (s.history.length : Int) - 1 then
    let s1 : HotSpotManager := { s with currentState := s.currentState + 1 }
    match arrayGet s1.history s1.currentState with
    | none => none
    | some snapshot =>
      some (saveShapes (updateButtonStates (drawImage { s1 with shapes := snapshot })))
  else some s

/-! ## Gestures -/

/-- The method `enableDrawing` (lines 48-50). -/
def enableDrawing (s : HotSpotManager) : HotSpotManager :=
  { s with drawingEnabled := true }

/-- The method `startDrawing` (lines 107-113). -/
def startDrawing (s : HotSpotManager) (e : PointerEvt) : HotSpotManager :=
  if !s.drawingEnabled then s
  else
    let pos := getMousePos s e
    { s with
      isDrawing := true
      startX := screenToImage pos.x s.imageOffsetX s.imageScale
      startY := screenToImage pos.y s.imageOffsetY s.imageScale }

/-- The method `draw` (lines 115-133). -/
def draw (s : HotSpotManager) (e : PointerEvt) : HotSpotManager :=
  if !s.drawingEnabled || !s.isDrawing then s
  else
    let pos := getMousePos s e
    let endX := screenToImage pos.x s.imageOffsetX s.imageScale
    let endY := screenToImage pos.y s.imageOffsetY s.imageScale
    let s1 := drawImage s
    let shape : Shape :=
      { type := s1.selectedShape
        startX := s1.startX
        startY := s1.startY
        endX := endX
        endY := endY
        index := s1.shapes.length + 1 }
    drawShape s1 shape

/-- The shape object `stopDrawing` builds (lines 138-149). -/
def stopDrawingShape (s : HotSpotManager) (e : PointerEvt) : Shape :=
  let pos := getMousePos s e
  let endX := screenToImage pos.x s.imageOffsetX s.imageScale
  let endY := screenToImage pos.y s.imageOffsetY s.imageScale
  { type := s.selectedShape
    startX := s.startX
    startY := s.startY
    endX := endX
    endY := endY
    index := s.shapes.length + 1 }

/-- The method `stopDrawing` (lines 135-158). -/
def stopDrawing (s : HotSpotManager) (e : PointerEvt) : HotSpotManager :=
  if !s.drawingEnabled || !s.isDrawing then s
  else
    let newShape := stopDrawingShape s e
    let s1 := addToHistory s (s.shapes ++ [newShape])
    let s2 : HotSpotManager := { s1 with shapes := s1.shapes ++ [newShape] }
    let s3 : HotSpotManager := { s2 with isDrawing := false, drawingEnabled := false }
    saveShapes (drawImage s3)

/-! ## Events -/

/-- The events the instance listens to (method `init`, lines 30-46), and the `load`
event of `this.image` (line 62), which carries the size of the decoded image. -/
inductive Event where
  | addHotspotClick
  | pointerdown (e : PointerEvt)
  | pointermove (e : PointerEvt)
  | pointerup (e : PointerEvt)
  | undoClick
  | redoClick
  | shapeChange (value : String)
  | opacityInput (value : JSNum)
  | imageLoad (width height : Nat)
deriving DecidableEq

/-- The handler bound to each event; `none` when the handler throws. -/
def handle (s : HotSpotManager) : Event → Option HotSpotManager
  | Event.addHotspotClick => some (enableDrawing s)
  | Event.pointerdown e => some (startDrawing s e)
  | Event.pointermove e => some (draw s e)
  | Event.pointerup e => some (stopDrawing s e)
  | Event.undoClick => undo s
  | Event.redoClick => redo s
  | Event.shapeChange value => some { s with selectedShape := value }
  | Event.opacityInput value =>
    some (drawImage { s with opacity := value / JSNum.fin 100 })
  | Event.imageLoad width height =>
    some (drawImage { s with imageWidth := width, imageHeight := height })

/-- The instance after a sequence of events, `none` if a handler throws. -/
def run (s : HotSpotManager) : List Event → Option HotSpotManager
  | [] => some s
  | ev :: rest =>
    match handle s ev with
    | none => none
    | some s1 => run s1 rest

/-- The states an instance can be in: the constructor state, and every state a
handler leaves when it runs in such a state. -/
inductive Reachable : HotSpotManager → Prop where
  | init (canvasWidth canvasHeight : Nat) (undoBtnDisabled redoBtnDisabled : Bool) :
    Reachable (constructor canvasWidth canvasHeight undoBtnDisabled redoBtnDisabled)
  | step {s s1 : HotSpotManager} (ev : Event) :
    Reachable s → handle s ev = some s1 → Reachable s1

/-! ## Predicates used in the statements -/

/-- The indices the shapes of a list carry, in order. -/
def indices (shapes : List Shape) : List Nat := shapes.map Shape.index

/-- The consistency of the history log with the active list: the log is not empty, the
pointer is `-1` or
an index into the log, the active list is the snapshot under the pointer (empty at
`-1`), and the active list and every snapshot are numbered by position. -/
structure Inv (s : HotSpotManager) : Prop where
  nonempty : s.history ≠ []
  lower : -1 ≤ s.currentState
  upper : s.currentState < (s.history.length : Int)
  active : 0 ≤ s.currentState → arrayGet s.history s.currentState = some s.shapes
  cleared : s.currentState < 0 → s.shapes = []
  numbered : renumber s.shapes = s.shapes
  snapshots : ∀ snap ∈ s.history, renumber snap = snap

/-! ## A worked session

A 400x300 canvas shown at its pixel size, an 800x300 image, and three drags. -/

/-- A pointer event at client position `(x, y)` over a canvas whose bounding box is
400x300 at the origin. -/
def pointerAt (x y : ℚ) : PointerEvt :=
  { clientX := JSNum.fin x
    clientY := JSNum.fin y
    rectLeft := JSNum.fin 0
    rectTop := JSNum.fin 0
    rectWidth := JSNum.fin 400
    rectHeight := JSNum.fin 300 }

/-- A fresh instance on a 400x300 canvas with both buttons enabled. -/
def session : HotSpotManager := constructor 400 300 false false

/-- The instance after the events `evs`, starting from `session`. -/
def sessionAfter (evs : List Event) : HotSpotManager := (run session evs).getD session

/-- The events of one drag from `(x0, y0)` to `(x1, y1)` after a click on "add hotspot". -/
def gesture (x0 y0 x1 y1 : ℚ) : List Event :=
  [Event.addHotspotClick, Event.pointerdown (pointerAt x0 y0), Event.pointerup (pointerAt x1 y1)]

/-- A rectangle with finite coordinates. -/
def rect (x0 y0 x1 y1 : ℚ) (index : Nat) : Shape :=
  { type := "rectangle"
    startX := JSNum.fin x0
    startY := JSNum.fin y0
    endX := JSNum.fin x1
    endY := JSNum.fin y1
    index := index }

/-- The session after an 800x300 image is loaded and two rectangles are drawn. -/
def afterTwo : HotSpotManager :=
  sessionAfter (Event.imageLoad 800 300 :: gesture 100 100 200 150 ++ gesture 40 90 80 120)

/-- The session `afterTwo` after one undo, a click on "add hotspot" and a pointer-down
at `(300, 200)`: a third drag is in progress while one snapshot can be redone. -/
def afterUndoArmed : HotSpotManager :=
  sessionAfter (Event.imageLoad 800 300 :: gesture 100 100 200 150 ++ gesture 40 90 80 120 ++
    [Event.undoClick, Event.addHotspotClick, Event.pointerdown (pointerAt 300 200)])

/-- The session after an 800x300 image is loaded, one undo at the initial snapshot,
and one rectangle drawn. -/
def afterUndoCommit : HotSpotManager :=
  sessionAfter (Event.imageLoad 800 300 :: Event.undoClick :: gesture 100 100 200 150)

/-- The session after an 800x300 image is loaded and "add hotspot" is clicked. -/
def armed : HotSpotManager :=
  sessionAfter [Event.imageLoad 800 300, Event.addHotspotClick]

/-! ## Reference placement -/

/-- The letterbox placement as the specification words it, on positive rationals: an
image wider than the canvas aspect is fitted to the canvas width and centred
vertically, any other image is fitted to the canvas height and centred horizontally;
the scale is the drawn width over the image width. -/
def letterboxReference (imageWidth imageHeight canvasWidth canvasHeight : ℚ) : Placement :=
  if imageWidth / imageHeight > canvasWidth / canvasHeight then
    let drawWidth := canvasWidth
    let drawHeight := canvasWidth * imageHeight / imageWidth
    { drawWidth := JSNum.fin drawWidth
      drawHeight := JSNum.fin drawHeight
      offsetX := JSNum.fin 0
      offsetY := JSNum.fin ((canvasHeight - drawHeight) / 2)
      scale := JSNum.fin (drawWidth / imageWidth) }
  else
    let drawHeight := canvasHeight
    let drawWidth := canvasHeight * imageWidth / imageHeight
    { drawWidth := JSNum.fin drawWidth
      drawHeight := JSNum.fin drawHeight
      offsetX := JSNum.fin ((canvasWidth - drawWidth) / 2)
      offsetY := JSNum.fin 0
      scale := JSNum.fin (drawWidth / imageWidth) }

/-! ## Rendering of one shape -/

namespace JSNum

/-- The function `Math.abs`. -/
def abs : JSNum → JSNum
  | fin q => fin |q|
  | posInf => posInf
  | negInf => posInf
  | nan => nan

/-- The function `Math.sign`. -/
def sign : JSNum → JSNum
  | fin q => if 0 < q then fin 1 else if q < 0 then fin (-1) else fin 0
  | posInf => fin 1
  | negInf => fin (-1)
  | nan => nan

/-- The function `Math.min` on two arguments; `NaN` if either is `NaN`. -/
def min : JSNum → JSNum → JSNum
  | fin a, fin b => fin (Min.min a b)
  | fin a, posInf => fin a
  | fin _, negInf => negInf
  | posInf, fin b => fin b
  | posInf, posInf => posInf
  | posInf, negInf => negInf
  | negInf, fin _ => negInf
  | negInf, posInf => negInf
  | negInf, negInf => negInf
  | nan, _ => nan
  | _, nan => nan

end JSNum

/-- A call on the 2D context `this.ctx`, or an assignment to one of its properties.
The call `arc(x, y, r, 0, Math.PI * 2)` is `arcFull x y r`; the text of `fillText`
is the decimal form of a shape index. -/
inductive CanvasCall where
  | save
  | restore
  | beginPath
  | closePath
  | stroke
  | fill
  | clip
  | setStrokeStyle (value : String)
  | setFillStyle (value : String)
  | setLineWidth (value : JSNum)
  | setGlobalAlpha (value : JSNum)
  | setFont (value : String)
  | setTextAlign (value : String)
  | setTextBaseline (value : String)
  | strokeRect (x y w h : JSNum)
  | fillRect (x y w h : JSNum)
  | moveTo (x y : JSNum)
  | lineTo (x y : JSNum)
  | arcFull (x y r : JSNum)
  | fillText (index : Nat) (x y : JSNum)
deriving DecidableEq

/-- The loop of `drawPattern` (lines 182-187), `for (let i = y; i <= y + h; i +=
lineSpacing)`, from the value `i` on; `bound` is `y + h`.  Each round draws one
horizontal line.  The loop is cut after `fuel` rounds: `none` means it was still
running. -/
def drawPatternLoop (x w bound : JSNum) : Nat → JSNum → Option (List CanvasCall)
  | 0, i => if JSNum.le i bound then none else some []
  | fuel + 1, i =>
    if JSNum.le i bound then
      (drawPatternLoop x w bound fuel (i + JSNum.fin 10)).map
        (fun rest =>
          [CanvasCall.beginPath, CanvasCall.moveTo x i, CanvasCall.lineTo (x + w) i,
            CanvasCall.stroke] ++ rest)
    else some []

/-- The local function `drawPattern` of `drawShape` (lines 171-188). -/
def drawPattern (opacity : JSNum) (fuel : Nat) (x y w h : JSNum) : Option (List CanvasCall) :=
  (drawPatternLoop x w (y + h) fuel y).map
    (fun lines =>
      [CanvasCall.setGlobalAlpha opacity, CanvasCall.setFillStyle "yellow",
        CanvasCall.fillRect x y w h, CanvasCall.setGlobalAlpha (JSNum.fin 1),
        CanvasCall.setStrokeStyle "red", CanvasCall.setLineWidth (JSNum.fin 2)] ++ lines)

/-- The loop of `drawPatternInCircle` (lines 228-238), from the value `y` on; `sqrt`
stands for `Math.sqrt`. -/
def drawPatternInCircleLoop (sqrt : JSNum → JSNum) (centerX centerY radius : JSNum) :
    Nat → JSNum → Option (List CanvasCall)
  | 0, y => if JSNum.le y (centerY + radius) then none else some []
  | fuel + 1, y =>
    if JSNum.le y (centerY + radius) then
      let dx := sqrt (radius * radius - (y - centerY) * (y - centerY))
      let x1 := centerX - dx
      let x2 := centerX + dx
      (drawPatternInCircleLoop sqrt centerX centerY radius fuel (y + JSNum.fin 10)).map
        (fun rest =>
          [CanvasCall.beginPath, CanvasCall.moveTo x1 y, CanvasCall.lineTo x2 y,
            CanvasCall.stroke] ++ rest)
    else some []

/-- The `switch` of `drawShape` (lines 190-265): the calls made for the shape's type.
A type other than the four cases makes no call. -/
def drawShapeSwitch (sqrt : JSNum → JSNum) (fuel : Nat) (s : HotSpotManager) (shape : Shape) :
    Option (List CanvasCall) :=
  let startX := (drawShapeBox s shape).startX
  let startY := (drawShapeBox s shape).startY
  let width := (drawShapeBox s shape).width
  let height := (drawShapeBox s shape).height
  if shape.type = "rectangle" then
    (drawPattern s.opacity fuel startX startY width height).map
      (fun pattern => CanvasCall.strokeRect startX startY width height :: pattern)
  else if shape.type = "square" then
    let side := JSNum.min (JSNum.abs width) (JSNum.abs height)
    (drawPattern s.opacity fuel startX startY (side * JSNum.sign width)
        (side * JSNum.sign height)).map
      (fun pattern =>
        CanvasCall.strokeRect startX startY (side * JSNum.sign width)
          (side * JSNum.sign height) :: pattern)
  else if shape.type = "circle" then
    let radius := JSNum.min (JSNum.abs width) (JSNum.abs height) / JSNum.fin 2
    let centerX := startX + width / JSNum.fin 2
    let centerY := startY + height / JSNum.fin 2
    (drawPatternInCircleLoop sqrt centerX centerY radius fuel (centerY - radius)).map
      (fun lines =>
        [CanvasCall.beginPath, CanvasCall.arcFull centerX centerY radius, CanvasCall.stroke,
          CanvasCall.save, CanvasCall.beginPath, CanvasCall.arcFull centerX centerY radius,
          CanvasCall.clip,
          CanvasCall.setGlobalAlpha s.opacity, CanvasCall.setFillStyle "yellow",
          CanvasCall.fill, CanvasCall.setGlobalAlpha (JSNum.fin 1),
          CanvasCall.setStrokeStyle "red", CanvasCall.setLineWidth (JSNum.fin 2)] ++ lines ++
        [CanvasCall.restore])
  else if shape.type = "triangle" then
    (drawPattern s.opacity fuel startX startY width height).map
      (fun pattern =>
        [CanvasCall.beginPath, CanvasCall.moveTo startX (startY + height),
          CanvasCall.lineTo (startX + width / JSNum.fin 2) startY,
          CanvasCall.lineTo (startX + width) (startY + height),
          CanvasCall.closePath, CanvasCall.stroke,
          CanvasCall.save, CanvasCall.beginPath, CanvasCall.moveTo startX (startY + height),
          CanvasCall.lineTo (startX + width / JSNum.fin 2) startY,
          CanvasCall.lineTo (startX + width) (startY + height),
          CanvasCall.closePath, CanvasCall.clip] ++ pattern ++ [CanvasCall.restore])
  else some []

/-- The calls `drawShape` makes on the context (lines 160-287): the outline and fill
of the shape, then the handle and the index at the start point. -/
def drawShapeCalls (sqrt : JSNum → JSNum) (fuel : Nat) (s : HotSpotManager) (shape : Shape) :
    Option (List CanvasCall) :=
  let startX := (drawShapeBox s shape).startX
  let startY := (drawShapeBox s shape).startY
  (drawShapeSwitch sqrt fuel s shape).map
    (fun body =>
      [CanvasCall.save, CanvasCall.setStrokeStyle "red", CanvasCall.setLineWidth (JSNum.fin 2)] ++
      body ++
      [CanvasCall.restore,
        CanvasCall.setFillStyle "white", CanvasCall.beginPath,
        CanvasCall.arcFull startX startY (JSNum.fin 7), CanvasCall.fill,
        CanvasCall.setStrokeStyle "black", CanvasCall.setLineWidth (JSNum.fin 1),
        CanvasCall.stroke,
        CanvasCall.setFillStyle "black", CanvasCall.setFont "10px Arial",
        CanvasCall.setTextAlign "center", CanvasCall.setTextBaseline "middle",
        CanvasCall.fillText shape.index startX startY,
        CanvasCall.restore])

/-- The heights of the `moveTo` calls in a list of calls, in order; `drawPattern`
starts each of its guide lines with one `moveTo`. -/
def moveToHeights (calls : List CanvasCall) : List JSNum :=
  calls.filterMap (fun call =>
    match call with
    | CanvasCall.moveTo _ y => some y
    | _ => none)

/-- The sign of a rational as a rational: 1, -1 or 0. -/
def ratSign (q : ℚ) : ℚ := if 0 < q then 1 else if q < 0 then -1 else 0

/-! ## More worked sessions -/

/-- The session after one drag while no image has been loaded. -/
def noImageGesture : HotSpotManager := sessionAfter (gesture 100 100 200 150)

/-- The session after an 800x300 image is loaded and one rectangle is drawn. -/
def afterOne : HotSpotManager :=
  sessionAfter (Event.imageLoad 800 300 :: gesture 100 100 200 150)

/-- The session after an 800x300 image is loaded and three rectangles are drawn. -/
def afterThree : HotSpotManager :=
  sessionAfter (Event.imageLoad 800 300 :: gesture 100 100 200 150 ++ gesture 40 90 80 120 ++
    gesture 300 200 350 225)

/-- The session `afterThree` after one undo. -/
def afterThreeUndo : HotSpotManager :=
  sessionAfter (Event.imageLoad 800 300 :: gesture 100 100 200 150 ++ gesture 40 90 80 120 ++
    gesture 300 200 350 225 ++ [Event.undoClick])

/-- The session after an 800x300 image is loaded, "add hotspot" is clicked and the
pointer goes down at `(100, 100)`. -/
def armedDown : HotSpotManager :=
  sessionAfter [Event.imageLoad 800 300, Event.addHotspotClick,
    Event.pointerdown (pointerAt 100 100)]

/-- A square dragged from the image point `(200, 350)` up and to the right to `(280,
150)`; on the placement of `armed` its screen box starts at `(100, 250)` and is 40
wide and -100 high. -/
def squareUp : Shape :=
  { type := "square"
    startX := JSNum.fin 200
    startY := JSNum.fin 350
    endX := JSNum.fin 280
    endY := JSNum.fin 150
    index := 1 }

/-- A rectangle dragged from the image point `(200, 250)` up and to the right to `(300,
170)`; on the placement of `armed` its screen box starts at `(100, 200)` and is 50
wide and -40 high. -/
def rectUp : Shape := rect 200 250 300 170 1

/-- The same rectangle dragged from its top edge down: from `(200, 170)` to `(300,
250)`; on the placement of `armed` its screen box starts at `(100, 160)` and is 50
wide and 40 high. -/
def rectDown : Shape := rect 200 170 300 250 1

/-- The calls of line 93, `this.shapes.forEach(shape => this.drawShape(shape))`, for
the list `shapes`, with the placement and opacity stored in `s`; `none` when a loop of
some `drawShape` is still running after `fuel` rounds. -/
def drawShapesCalls (sqrt : JSNum → JSNum) (fuel : Nat) (s : HotSpotManager) :
    List Shape → Option (List CanvasCall)
  | [] => some []
  | shape :: rest =>
    match drawShapeCalls sqrt fuel s shape with
    | none => none
    | some calls => (drawShapesCalls sqrt fuel s rest).map (fun more => calls ++ more)

/-- A pointer event at client position `(185, 132.5)` over a canvas shown at half its
pixel size, in a bounding box 200x150 whose corner is at `(10, 20)`; on the 400x300
canvas it is the canvas pixel `(350, 225)`. -/
def pointerScaled : PointerEvt :=
  { clientX := JSNum.fin 185
    clientY := JSNum.fin (265 / 2)
    rectLeft := JSNum.fin 10
    rectTop := JSNum.fin 20
    rectWidth := JSNum.fin 200
    rectHeight := JSNum.fin 150 }

/-- A square dragged from the image point `(200, 350)` straight to the right to `(280,
350)`; on the placement of `armed` its screen box starts at `(100, 250)` and is 40
wide and 0 high. -/
def squareFlat : Shape :=
  { type := "square"
    startX := JSNum.fin 200
    startY := JSNum.fin 350
    endX := JSNum.fin 280
    endY := JSNum.fin 350
    index := 1 }

/-! ## Rounding to doubles -/

/-- The integer nearest to a rational, the even one of the two when it lies half-way
between them. -/
def roundHalfEven (x : ℚ) : Int :=
  if x - (⌊x⌋ : ℚ) < 1 / 2 then ⌊x⌋
  else if 1 / 2 < x - (⌊x⌋ : ℚ) then ⌊x⌋ + 1
  else if ⌊x⌋ % 2 = 0 then ⌊x⌋ else ⌊x⌋ + 1

/-- The double nearest to a rational: IEEE 754 binary64 with rounding to nearest,
ties to even.  A double has 53 significant bits, so a value between `2 ^ E` and `2 ^
(E + 1)` is rounded to a multiple of `2 ^ (E - 52)`; below `2 ^ (-1022)` the spacing
stays `2 ^ (-1074)`; a result of magnitude `2 ^ 1024` or more is an infinity. -/
def round64 (q : ℚ) : JSNum :=
  if q = 0 then JSNum.fin 0
  else
    let e : Int := max (Int.log 2 |q|) (-1022) - 52
    let r : ℚ := (roundHalfEven (q / 2 ^ e) : ℚ) * 2 ^ e
    if (2 : ℚ) ^ (1024 : Int) ≤ |r| then (if 0 < q then JSNum.posInf else JSNum.negInf)
    else JSNum.fin r

/-- The double in which the engine stores the exact result of one operation. -/
def JSNum.toDouble : JSNum → JSNum
  | JSNum.fin q => round64 q
  | JSNum.posInf => JSNum.posInf
  | JSNum.negInf => JSNum.negInf
  | JSNum.nan => JSNum.nan

/-- The placement computed by `drawImage` (lines 67-88) when the result of every
operation is passed through `rounding`. -/
def drawImagePlacementWith (rounding : JSNum → JSNum)
    (imageWidth imageHeight canvasWidth canvasHeight : JSNum) : Placement :=
  let imageAspect := rounding (imageWidth / imageHeight)
  let canvasAspect := rounding (canvasWidth / canvasHeight)
  if JSNum.gt imageAspect canvasAspect then
    let drawWidth := canvasWidth
    let drawHeight := rounding (canvasWidth / imageAspect)
    { drawWidth := drawWidth
      drawHeight := drawHeight
      offsetX := JSNum.fin 0
      offsetY := rounding (rounding (canvasHeight - drawHeight) / JSNum.fin 2)
      scale := rounding (drawWidth / imageWidth) }
  else
    let drawHeight := canvasHeight
    let drawWidth := rounding (canvasHeight * imageAspect)
    { drawWidth := drawWidth
      drawHeight := drawHeight
      offsetX := rounding (rounding (canvasWidth - drawWidth) / JSNum.fin 2)
      offsetY := JSNum.fin 0
      scale := rounding (drawWidth / imageWidth) }

/-- The placement computed by `drawImage` (lines 67-88) on doubles, as the engine
computes it: every operation rounds its exact result to the nearest double. -/
def drawImagePlacement64 (imageWidth imageHeight canvasWidth canvasHeight : JSNum) : Placement :=
  drawImagePlacementWith JSNum.toDouble imageWidth imageHeight canvasWidth canvasHeight

end HotSpot

namespace HotSpot

/-! ## Arithmetic on finite numbers -/

namespace JSNum

@[simp] theorem fin_add_fin (a b : ℚ) : fin a + fin b = fin (a + b) := rfl

@[simp] theorem fin_sub_fin (a b : ℚ) : fin a - fin b = fin (a - b) := by
  show add (fin a) (neg (fin b)) = _
  simp [add, neg, sub_eq_add_neg]

@[simp] theorem fin_mul_fin (a b : ℚ) : fin a * fin b = fin (a * b) := rfl

theorem fin_div_fin (a b : ℚ) (h : b ≠ 0) : fin a / fin b = fin (a / b) := by
  show div (fin a) (fin b) = _
  simp [div, h]

@[simp] theorem gt_fin_fin (a b : ℚ) : gt (fin a) (fin b) = decide (b < a) := rfl

@[simp] theorem lt_fin_fin (a b : ℚ) : lt (fin a) (fin b) = decide (a < b) := rfl

@[simp] theorem le_fin_fin (a b : ℚ) : le (fin a) (fin b) = decide (a ≤ b) := rfl

end JSNum

/-! ## Renumbering -/

theorem renumberFrom_length (k : Nat) (l : List Shape) :
    (renumberFrom k l).length = l.length := by
  induction l generalizing k with
  | nil => rfl
  | cons a l ih => simp [renumberFrom, ih]

theorem renumberFrom_append (k : Nat) (a b : List Shape) :
    renumberFrom k (a ++ b) = renumberFrom k a ++ renumberFrom (k + a.length) b := by
  induction a generalizing k with
  | nil => simp [renumberFrom]
  | cons x a ih =>
    have h := ih (k + 1)
    rw [show k + 1 + a.length = k + (a.length + 1) by omega] at h
    simp [renumberFrom, h]

theorem renumberFrom_indices (k : Nat) (l : List Shape) :
    indices (renumberFrom k l) = List.range' (k + 1) l.length := by
  induction l generalizing k with
  | nil => rfl
  | cons a l ih =>
    have h := ih (k + 1)
    simp only [indices] at h ⊢
    simp [renumberFrom, List.range', h]

theorem renumberFrom_fixed_iff (k : Nat) (l : List Shape) :
    renumberFrom k l = l ↔ indices l = List.range' (k + 1) l.length := by
  induction l generalizing k with
  | nil => simp [renumberFrom, indices]
  | cons a l ih =>
    have h := ih (k + 1)
    simp only [indices] at h ⊢
    simp only [renumberFrom, List.cons.injEq, List.map_cons, List.length_cons, List.range', h]
    constructor
    · rintro ⟨h1, h2⟩
      refine ⟨?_, h2⟩
      rw [← h1]
    · rintro ⟨h1, h2⟩
      refine ⟨?_, h2⟩
      cases a
      simp only [Shape.mk.injEq, true_and] at h1 ⊢
      exact h1.symm

theorem renumber_fixed_iff (l : List Shape) :
    renumber l = l ↔ indices l = List.range' 1 l.length :=
  renumberFrom_fixed_iff 0 l

theorem renumberFrom_idem (k : Nat) (l : List Shape) :
    renumberFrom k (renumberFrom k l) = renumberFrom k l := by
  rw [renumberFrom_fixed_iff, renumberFrom_indices, renumberFrom_length]

theorem renumber_idem (l : List Shape) : renumber (renumber l) = renumber l :=
  renumberFrom_idem 0 l

/-- Appending a shape whose index is the new length keeps a numbered list numbered. -/
theorem renumber_append_last (l : List Shape) (sh : Shape) (hl : renumber l = l)
    (hs : sh.index = l.length + 1) : renumber (l ++ [sh]) = l ++ [sh] := by
  unfold renumber at hl ⊢
  rw [renumberFrom_append, hl]
  cases sh
  simp only [renumberFrom, Nat.zero_add] at hs ⊢
  simp [hs]

/-! ## Array reads and slices -/

theorem slice0_of_nonneg {α : Type} (xs : List α) (e : Int) (h : 0 ≤ e) :
    slice0 xs e = xs.take e.toNat := by
  unfold slice0
  rw [if_neg (by omega)]

theorem arrayGet_of_lt {α : Type} (xs : List α) (i : Int) (h0 : 0 ≤ i)
    (h1 : i < (xs.length : Int)) : ∃ x, arrayGet xs i = some x := by
  unfold arrayGet
  rw [if_pos h0]
  have h : i.toNat < xs.length := by omega
  exact ⟨xs[i.toNat], List.getElem?_eq_getElem h⟩

theorem arrayGet_mem {α : Type} (xs : List α) (i : Int) (x : α)
    (h : arrayGet xs i = some x) : x ∈ xs := by
  unfold arrayGet at h
  split at h
  · exact List.getElem?_mem h
  · cases h

theorem arrayGet_append_length {α : Type} (xs : List α) (y : α) :
    arrayGet (xs ++ [y]) (xs.length : Int) = some y := by
  unfold arrayGet
  rw [if_pos (by omega)]
  simp

/-! ## Effect of each method on the log, the pointer and the active list -/

@[simp] theorem drawImage_history (s : HotSpotManager) :
    (drawImage s).history = s.history := rfl

@[simp] theorem drawImage_currentState (s : HotSpotManager) :
    (drawImage s).currentState = s.currentState := rfl

@[simp] theorem drawImage_shapes (s : HotSpotManager) :
    (drawImage s).shapes = s.shapes := rfl

@[simp] theorem saveShapes_history (s : HotSpotManager) :
    (saveShapes s).history = s.history := rfl

@[simp] theorem saveShapes_currentState (s : HotSpotManager) :
    (saveShapes s).currentState = s.currentState := rfl

@[simp] theorem saveShapes_shapes (s : HotSpotManager) :
    (saveShapes s).shapes = s.shapes := rfl

@[simp] theorem updateButtonStates_history (s : HotSpotManager) :
    (updateButtonStates s).history = s.history := rfl

@[simp] theorem updateButtonStates_currentState (s : HotSpotManager) :
    (updateButtonStates s).currentState = s.currentState := rfl

@[simp] theorem updateButtonStates_shapes (s : HotSpotManager) :
    (updateButtonStates s).shapes = s.shapes := rfl

theorem addToHistory_history (s : HotSpotManager) (l : List Shape) (h : s.history ≠ []) :
    (addToHistory s l).history = slice0 s.history (s.currentState + 1) ++ [renumber l] := by
  have hlen : ¬ (s.currentState = -1 ∧ s.history.length = 0) := by
    rintro ⟨_, h0⟩
    exact h (List.length_eq_zero.mp h0)
  simp only [addToHistory, if_neg hlen, saveShapes_history, updateButtonStates_history]

theorem addToHistory_currentState (s : HotSpotManager) (l : List Shape) (h : s.history ≠ []) :
    (addToHistory s l).currentState = s.currentState + 1 := by
  have hlen : ¬ (s.currentState = -1 ∧ s.history.length = 0) := by
    rintro ⟨_, h0⟩
    exact h (List.length_eq_zero.mp h0)
  simp only [addToHistory, if_neg hlen, saveShapes_currentState, updateButtonStates_currentState]

theorem addToHistory_shapes (s : HotSpotManager) (l : List Shape) :
    (addToHistory s l).shapes = s.shapes := by
  unfold addToHistory
  split <;> rfl

theorem stopDrawing_active (s : HotSpotManager) (e : PointerEvt)
    (h1 : s.drawingEnabled = true) (h2 : s.isDrawing = true) :
    stopDrawing s e =
      saveShapes (drawImage
        { addToHistory s (s.shapes ++ [stopDrawingShape s e]) with
          shapes := (addToHistory s (s.shapes ++ [stopDrawingShape s e])).shapes ++
            [stopDrawingShape s e]
          isDrawing := false
          drawingEnabled := false }) := by
  simp [stopDrawing, h1, h2]

theorem stopDrawing_idle (s : HotSpotManager) (e : PointerEvt)
    (h : s.drawingEnabled = false ∨ s.isDrawing = false) : stopDrawing s e = s := by
  rcases h with h | h <;> simp [stopDrawing, h]

theorem stopDrawing_history (s : HotSpotManager) (e : PointerEvt) (h : s.history ≠ [])
    (h1 : s.drawingEnabled = true) (h2 : s.isDrawing = true) :
    (stopDrawing s e).history =
      slice0 s.history (s.currentState + 1) ++ [renumber (s.shapes ++ [stopDrawingShape s e])] := by
  rw [stopDrawing_active s e h1 h2]
  simp only [saveShapes_history, drawImage_history]
  exact addToHistory_history s _ h

theorem stopDrawing_currentState (s : HotSpotManager) (e : PointerEvt) (h : s.history ≠ [])
    (h1 : s.drawingEnabled = true) (h2 : s.isDrawing = true) :
    (stopDrawing s e).currentState = s.currentState + 1 := by
  rw [stopDrawing_active s e h1 h2]
  simp only [saveShapes_currentState, drawImage_currentState]
  exact addToHistory_currentState s _ h

theorem stopDrawing_shapes (s : HotSpotManager) (e : PointerEvt)
    (h1 : s.drawingEnabled = true) (h2 : s.isDrawing = true) :
    (stopDrawing s e).shapes = s.shapes ++ [stopDrawingShape s e] := by
  rw [stopDrawing_active s e h1 h2]
  simp only [saveShapes_shapes, drawImage_shapes, addToHistory_shapes]

theorem undo_pos (s : HotSpotManager) (snapshot : List Shape) (h : 0 < s.currentState)
    (hs : arrayGet s.history (s.currentState - 1) = some snapshot) :
    undo s = some (saveShapes (updateButtonStates (drawImage
      { s with currentState := s.currentState - 1, shapes := snapshot }))) := by
  unfold undo
  rw [if_pos (by omega)]
  simp only
  rw [if_pos (by omega), hs]

theorem undo_zero (s : HotSpotManager) (h : s.currentState = 0) :
    undo s = some (saveShapes (updateButtonStates (drawImage
      { s with currentState := s.currentState - 1, shapes := [] }))) := by
  unfold undo
  rw [if_pos (by omega)]
  simp only
  rw [if_neg (by omega)]

theorem undo_neg (s : HotSpotManager) (h : s.currentState < 0) : undo s = some s := by
  unfold undo
  rw [if_neg (by omega)]

theorem redo_lt (s : HotSpotManager) (snapshot : List Shape)
    (h : s.currentState < (s.history.length : Int) - 1)
    (hs : arrayGet s.history (s.currentState + 1) = some snapshot) :
    redo s = some (saveShapes (updateButtonStates (drawImage
      { s with currentState := s.currentState + 1, shapes := snapshot }))) := by
  unfold redo
  rw [if_pos h]
  simp only
  rw [hs]

theorem redo_ge (s : HotSpotManager) (h : ¬ s.currentState < (s.history.length : Int) - 1) :
    redo s = some s := by
  unfold redo
  rw [if_neg h]

/-! ## The invariant holds in every reachable state -/

theorem Inv.of_same {s t : HotSpotManager} (hs : Inv s) (h1 : t.history = s.history)
    (h2 : t.currentState = s.currentState) (h3 : t.shapes = s.shapes) : Inv t := by
  obtain ⟨n, a, b, c, d, e, f⟩ := hs
  constructor
  · rw [h1]; exact n
  · rw [h2]; exact a
  · rw [h1, h2]; exact b
  · rw [h1, h2, h3]; exact c
  · rw [h2, h3]; exact d
  · rw [h3]; exact e
  · rw [h1]; exact f

theorem Inv.history_ne_nil {s : HotSpotManager} (hs : Inv s) : s.history ≠ [] :=
  hs.nonempty

theorem inv_constructor (cw ch : Nat) (u r : Bool) : Inv (constructor cw ch u r) := by
  constructor <;> simp [constructor, arrayGet, renumber, renumberFrom]

theorem inv_stopDrawing (s : HotSpotManager) (e : PointerEvt) (hs : Inv s) :
    Inv (stopDrawing s e) := by
  by_cases h1 : s.drawingEnabled = true
  swap
  · rw [stopDrawing_idle s e (Or.inl (by simpa using h1))]; exact hs
  by_cases h2 : s.isDrawing = true
  swap
  · rw [stopDrawing_idle s e (Or.inr (by simpa using h2))]; exact hs
  have hne := hs.history_ne_nil
  have hlo := hs.lower
  have hup := hs.upper
  have hH := stopDrawing_history s e hne h1 h2
  have hC := stopDrawing_currentState s e hne h1 h2
  have hS := stopDrawing_shapes s e h1 h2
  rw [slice0_of_nonneg _ _ (by omega)] at hH
  have hnum : renumber (s.shapes ++ [stopDrawingShape s e]) = s.shapes ++ [stopDrawingShape s e] :=
    renumber_append_last _ _ hs.numbered rfl
  have hlen : (s.history.take (s.currentState + 1).toNat).length = (s.currentState + 1).toNat := by
    rw [List.length_take]; omega
  constructor
  · rw [hH]; simp
  · rw [hC]; omega
  · rw [hC, hH, List.length_append, hlen, List.length_singleton]; omega
  · intro _
    rw [hC, hH, hS, hnum]
    have := arrayGet_append_length (s.history.take (s.currentState + 1).toNat)
      (s.shapes ++ [stopDrawingShape s e])
    rw [hlen, Int.toNat_of_nonneg (by omega)] at this
    exact this
  · rw [hC]; intro h; omega
  · rw [hS]; exact hnum
  · rw [hH]
    intro snap hmem
    rcases List.mem_append.mp hmem with h | h
    · exact hs.snapshots snap (List.mem_of_mem_take h)
    · rw [List.mem_singleton.mp h]; exact renumber_idem _

theorem inv_undo (s t : HotSpotManager) (hs : Inv s) (h : undo s = some t) : Inv t := by
  have hlo := hs.lower
  have hup := hs.upper
  rcases lt_trichotomy s.currentState 0 with hc | hc | hc
  · rw [undo_neg s hc] at h
    cases h; exact hs
  · rw [undo_zero s hc] at h
    cases h
    constructor
    · simpa using hs.nonempty
    · simp; omega
    · simp; omega
    · simp; intro; omega
    · simp
    · simp [renumber, renumberFrom]
    · simpa using hs.snapshots
  · obtain ⟨snap, hsnap⟩ := arrayGet_of_lt s.history (s.currentState - 1) (by omega) (by omega)
    rw [undo_pos s snap hc hsnap] at h
    cases h
    have hmem := arrayGet_mem _ _ _ hsnap
    constructor
    · simpa using hs.nonempty
    · simp; omega
    · simp; omega
    · simp; intro; exact hsnap
    · simp; intro; omega
    · simpa using hs.snapshots snap hmem
    · simpa using hs.snapshots

theorem inv_redo (s t : HotSpotManager) (hs : Inv s) (h : redo s = some t) : Inv t := by
  have hlo := hs.lower
  have hup := hs.upper
  by_cases hc : s.currentState < (s.history.length : Int) - 1
  · obtain ⟨snap, hsnap⟩ := arrayGet_of_lt s.history (s.currentState + 1) (by omega) (by omega)
    rw [redo_lt s snap hc hsnap] at h
    cases h
    have hmem := arrayGet_mem _ _ _ hsnap
    constructor
    · simpa using hs.nonempty
    · simp; omega
    · simp; omega
    · simp; intro; exact hsnap
    · simp; intro; omega
    · simpa using hs.snapshots snap hmem
    · simpa using hs.snapshots
  · rw [redo_ge s hc] at h
    cases h; exact hs

theorem inv_handle (s t : HotSpotManager) (ev : Event) (hs : Inv s)
    (h : handle s ev = some t) : Inv t := by
  cases ev with
  | addHotspotClick => cases h; exact hs.of_same rfl rfl rfl
  | pointerdown e =>
    cases h
    unfold startDrawing
    split
    · exact hs
    · exact hs.of_same rfl rfl rfl
  | pointermove e =>
    cases h
    unfold draw
    split
    · exact hs
    · exact hs.of_same rfl rfl rfl
  | pointerup e => cases h; exact inv_stopDrawing s e hs
  | undoClick => exact inv_undo s t hs h
  | redoClick => exact inv_redo s t hs h
  | shapeChange v => cases h; exact hs.of_same rfl rfl rfl
  | opacityInput v => cases h; exact hs.of_same rfl rfl rfl
  | imageLoad w hgt => cases h; exact hs.of_same rfl rfl rfl

theorem reachable_inv {s : HotSpotManager} (h : Reachable s) : Inv s := by
  induction h with
  | init cw ch u r => exact inv_constructor cw ch u r
  | step ev _ hstep ih => exact inv_handle _ _ ev ih hstep

theorem reachable_run {s t : HotSpotManager} (evs : List Event) (hs : Reachable s)
    (h : run s evs = some t) : Reachable t := by
  induction evs generalizing s with
  | nil => simp only [run, Option.some.injEq] at h; rw [← h]; exact hs
  | cons ev rest ih =>
    simp only [run] at h
    split at h
    · cases h
    · rename_i s1 hstep
      exact ih (Reachable.step ev hs hstep) h

theorem reachable_sessionAfter (evs : List Event) : Reachable (sessionAfter evs) := by
  unfold sessionAfter
  cases h : run session evs with
  | none => exact Reachable.init 400 300 false false
  | some t => exact reachable_run evs (Reachable.init 400 300 false false) h

theorem afterTwo_fields :
    afterTwo.shapes = [rect 200 50 400 150 1, rect 80 30 160 90 2] ∧
    afterTwo.history =
      [[], [rect 200 50 400 150 1], [rect 200 50 400 150 1, rect 80 30 160 90 2]] ∧
    afterTwo.currentState = 2 := by
  norm_num [afterTwo, sessionAfter, session, gesture, pointerAt, run, handle, constructor,
    drawImage, drawImagePlacement, JSNum.fin_div_fin, enableDrawing, startDrawing, stopDrawing,
    stopDrawingShape, getMousePos, screenToImage, addToHistory, saveShapes, updateButtonStates,
    renumber, renumberFrom, slice0, JSNum.ofNat, rect, show (2 : Int).toNat = 2 from rfl]

theorem afterUndoArmed_fields :
    afterUndoArmed.shapes = [rect 200 50 400 150 1] ∧
    afterUndoArmed.history =
      [[], [rect 200 50 400 150 1], [rect 200 50 400 150 1, rect 80 30 160 90 2]] ∧
    afterUndoArmed.currentState = 1 ∧
    afterUndoArmed.drawingEnabled = true ∧ afterUndoArmed.isDrawing = true ∧
    stopDrawingShape afterUndoArmed (pointerAt 350 225) = rect 600 250 700 300 2 := by
  norm_num [afterUndoArmed, sessionAfter, session, gesture, pointerAt, run, handle, constructor,
    drawImage, drawImagePlacement, JSNum.fin_div_fin, enableDrawing, startDrawing, stopDrawing,
    stopDrawingShape, getMousePos, screenToImage, addToHistory, saveShapes, updateButtonStates,
    renumber, renumberFrom, slice0, JSNum.ofNat, rect, undo, arrayGet,
    show (2 : Int).toNat = 2 from rfl]

theorem addToHistory_end (s : HotSpotManager) (l : List Shape) (hne : s.history ≠ [])
    (hlo : -1 ≤ s.currentState) (hup : s.currentState < (s.history.length : Int)) :
    (addToHistory s l).currentState = ((addToHistory s l).history.length : Int) - 1 ∧
    ((addToHistory s l).history.length : Int) = s.currentState + 2 := by
  rw [addToHistory_history s l hne, addToHistory_currentState s l hne,
    slice0_of_nonneg _ _ (by omega), List.length_append, List.length_take,
    List.length_singleton]
  omega

theorem stopDrawing_end (s : HotSpotManager) (e : PointerEvt) (hne : s.history ≠ [])
    (hlo : -1 ≤ s.currentState) (hup : s.currentState < (s.history.length : Int))
    (hd : s.drawingEnabled = true) (hi : s.isDrawing = true) :
    (stopDrawing s e).currentState = ((stopDrawing s e).history.length : Int) - 1 ∧
    ((stopDrawing s e).history.length : Int) = s.currentState + 2 := by
  rw [stopDrawing_history s e hne hd hi, stopDrawing_currentState s e hne hd hi,
    slice0_of_nonneg _ _ (by omega), List.length_append, List.length_take,
    List.length_singleton]
  omega

theorem foldl_addToHistory (ls : List (List Shape)) (s : HotSpotManager)
    (hne : s.history ≠ []) (hend : s.currentState = (s.history.length : Int) - 1) :
    (ls.foldl addToHistory s).currentState = s.currentState + (ls.length : Int) ∧
    ((ls.foldl addToHistory s).history.length : Int) =
      (s.history.length : Int) + (ls.length : Int) := by
  induction ls generalizing s with
  | nil => simp
  | cons l ls ih =>
    have hlen : 0 < s.history.length := List.length_pos.mpr hne
    have h := addToHistory_end s l hne (by omega) (by omega)
    have hne1 : (addToHistory s l).history ≠ [] := by
      rw [addToHistory_history s l hne]; simp
    have h2 := ih (addToHistory s l) hne1 h.1
    simp only [List.foldl_cons, List.length_cons]
    rw [h2.1, h2.2, h.2, addToHistory_currentState s l hne]
    push_cast
    omega

/-! ## Placement on positive sizes -/

theorem drawImagePlacement_eq_reference (iw ih cw ch : ℚ) (h1 : 0 < iw) (h2 : 0 < ih)
    (h4 : 0 < ch) :
    drawImagePlacement (JSNum.fin iw) (JSNum.fin ih) (JSNum.fin cw) (JSNum.fin ch) =
      letterboxReference iw ih cw ch := by
  have hih : ih ≠ 0 := ne_of_gt h2
  have hiw : iw ≠ 0 := ne_of_gt h1
  have hch : ch ≠ 0 := ne_of_gt h4
  have hasp : iw / ih ≠ 0 := div_ne_zero hiw hih
  unfold drawImagePlacement letterboxReference
  simp only [JSNum.fin_div_fin _ _ hih, JSNum.fin_div_fin _ _ hch, JSNum.gt_fin_fin,
    decide_eq_true_eq, gt_iff_lt]
  split
  · simp only [JSNum.fin_div_fin _ _ hasp, JSNum.fin_div_fin _ _ hiw, JSNum.fin_sub_fin,
      JSNum.fin_div_fin _ _ (two_ne_zero)]
    have e : cw / (iw / ih) = cw * ih / iw := by field_simp
    rw [e]
  · simp only [JSNum.fin_mul_fin, JSNum.fin_div_fin _ _ hiw, JSNum.fin_sub_fin,
      JSNum.fin_div_fin _ _ (two_ne_zero)]
    have e : ch * (iw / ih) = ch * iw / ih := by field_simp
    rw [e]

theorem afterUndoCommit_fields :
    afterUndoCommit.history = [[rect 200 50 400 150 1]] ∧
    afterUndoCommit.currentState = 0 ∧
    afterUndoCommit.shapes = [rect 200 50 400 150 1] := by
  norm_num [afterUndoCommit, sessionAfter, session, gesture, pointerAt, run, handle,
    constructor, drawImage, drawImagePlacement, JSNum.fin_div_fin, enableDrawing, startDrawing,
    stopDrawing, stopDrawingShape, getMousePos, screenToImage, addToHistory, saveShapes,
    updateButtonStates, renumber, renumberFrom, slice0, JSNum.ofNat, rect, undo, arrayGet]

theorem armed_fields :
    armed.imageOffsetX = JSNum.fin 0 ∧ armed.imageOffsetY = JSNum.fin 75 ∧
    armed.imageScale = JSNum.fin (1 / 2) ∧ armed.drawingEnabled = true ∧
    armed.canvasWidth = 400 ∧ armed.canvasHeight = 300 := by
  norm_num [armed, sessionAfter, session, run, handle, constructor, drawImage,
    drawImagePlacement, JSNum.fin_div_fin, enableDrawing, JSNum.ofNat]

/-! ## Reads of the log never fail in a reachable state -/

theorem undo_some (s : HotSpotManager) (hs : Inv s) : ∃ t, undo s = some t := by
  have hup := hs.upper
  rcases lt_trichotomy s.currentState 0 with hc | hc | hc
  · exact ⟨_, undo_neg s hc⟩
  · exact ⟨_, undo_zero s hc⟩
  · obtain ⟨snap, hsnap⟩ := arrayGet_of_lt s.history (s.currentState - 1) (by omega) (by omega)
    exact ⟨_, undo_pos s snap hc hsnap⟩

theorem redo_some (s : HotSpotManager) (hs : Inv s) : ∃ t, redo s = some t := by
  by_cases h : s.currentState < (s.history.length : Int) - 1
  · have hlo := hs.lower
    obtain ⟨snap, hsnap⟩ := arrayGet_of_lt s.history (s.currentState + 1) (by omega) (by omega)
    exact ⟨_, redo_lt s snap h hsnap⟩
  · exact ⟨_, redo_ge s h⟩

/-! ## Arithmetic that leaves the finite numbers -/

namespace JSNum

theorem add_def (a b : JSNum) : a + b = add a b := rfl

theorem sub_def (a b : JSNum) : a - b = add a (neg b) := rfl

theorem mul_def (a b : JSNum) : a * b = mul a b := rfl

theorem div_def (a b : JSNum) : a / b = div a b := rfl

end JSNum

theorem drawImagePlacement_no_image (cw ch : ℚ) (h4 : 0 < ch) :
    drawImagePlacement (JSNum.fin 0) (JSNum.fin 0) (JSNum.fin cw) (JSNum.fin ch) =
      { drawWidth := JSNum.nan
        drawHeight := JSNum.fin ch
        offsetX := JSNum.nan
        offsetY := JSNum.fin 0
        scale := JSNum.nan } := by
  have hch : ch ≠ 0 := ne_of_gt h4
  simp [drawImagePlacement, JSNum.div_def, JSNum.mul_def, JSNum.sub_def, JSNum.div, JSNum.mul,
    JSNum.add, JSNum.neg, JSNum.gt, JSNum.lt, hch]

theorem drawImagePlacement_canvas_width_zero (iw ih ch : ℚ) (h1 : 0 < iw) (h2 : 0 < ih)
    (h4 : 0 < ch) :
    drawImagePlacement (JSNum.fin iw) (JSNum.fin ih) (JSNum.fin 0) (JSNum.fin ch) =
      { drawWidth := JSNum.fin 0
        drawHeight := JSNum.fin 0
        offsetX := JSNum.fin 0
        offsetY := JSNum.fin (ch / 2)
        scale := JSNum.fin 0 } := by
  have hch : ch ≠ 0 := ne_of_gt h4
  have hiw : iw ≠ 0 := ne_of_gt h1
  have hih : ih ≠ 0 := ne_of_gt h2
  have hpos : 0 < iw / ih := div_pos h1 h2
  simp [drawImagePlacement, JSNum.div_def, JSNum.mul_def, JSNum.sub_def, JSNum.div, JSNum.mul,
    JSNum.add, JSNum.neg, JSNum.gt, JSNum.lt, hch, hiw, hih, hpos]

theorem drawImagePlacement_canvas_height_zero (iw ih cw : ℚ) (h1 : 0 < iw) (h2 : 0 < ih)
    (h3 : 0 < cw) :
    drawImagePlacement (JSNum.fin iw) (JSNum.fin ih) (JSNum.fin cw) (JSNum.fin 0) =
      { drawWidth := JSNum.fin 0
        drawHeight := JSNum.fin 0
        offsetX := JSNum.fin (cw / 2)
        offsetY := JSNum.fin 0
        scale := JSNum.fin 0 } := by
  have hcw : cw ≠ 0 := ne_of_gt h3
  have hiw : iw ≠ 0 := ne_of_gt h1
  have hih : ih ≠ 0 := ne_of_gt h2
  simp [drawImagePlacement, JSNum.div_def, JSNum.mul_def, JSNum.sub_def, JSNum.div, JSNum.mul,
    JSNum.add, JSNum.neg, JSNum.gt, JSNum.lt, hcw, hiw, hih, h3]

/-! ## The worked sessions, evaluated -/

theorem noImageGesture_fields :
    noImageGesture.imageWidth = 0 ∧ noImageGesture.imageHeight = 0 ∧
    noImageGesture.shapes = [rect 100 100 200 150 1] ∧
    noImageGesture.history = [[], [rect 100 100 200 150 1]] ∧
    noImageGesture.currentState = 1 ∧
    noImageGesture.savedShapes = [[], [rect 100 100 200 150 1]] ∧
    noImageGesture.painted = [rect 100 100 200 150 1] ∧
    noImageGesture.imageScale = JSNum.nan := by
  norm_num [noImageGesture, sessionAfter, session, gesture, pointerAt, run, handle, constructor,
    drawImage, drawImagePlacement, JSNum.fin_div_fin, enableDrawing, startDrawing, stopDrawing,
    stopDrawingShape, getMousePos, screenToImage, addToHistory, saveShapes, updateButtonStates,
    renumber, renumberFrom, slice0, JSNum.ofNat, rect, JSNum.div_def, JSNum.mul_def,
    JSNum.sub_def, JSNum.div, JSNum.mul, JSNum.add, JSNum.neg, JSNum.gt, JSNum.lt]

theorem session_drawImage :
    session.imageWidth = 0 ∧ session.imageHeight = 0 ∧
    session.imageOffsetX = JSNum.fin 0 ∧ session.imageScale = JSNum.fin 1 ∧
    (drawImage session).imageOffsetX = JSNum.nan ∧
    (drawImage session).imageScale = JSNum.nan := by
  norm_num [session, constructor, drawImage, drawImagePlacement, JSNum.fin_div_fin, JSNum.ofNat,
    JSNum.div_def, JSNum.mul_def, JSNum.sub_def, JSNum.div, JSNum.mul, JSNum.add, JSNum.neg,
    JSNum.gt, JSNum.lt]

/-! ## Writes to persistence -/

@[simp] theorem drawImage_savedShapes (s : HotSpotManager) :
    (drawImage s).savedShapes = s.savedShapes := rfl

@[simp] theorem updateButtonStates_savedShapes (s : HotSpotManager) :
    (updateButtonStates s).savedShapes = s.savedShapes := rfl

theorem saveShapes_savedShapes (s : HotSpotManager) :
    (saveShapes s).savedShapes = s.savedShapes ++ [renumber s.shapes] := rfl

theorem addToHistory_savedShapes (s : HotSpotManager) (l : List Shape) :
    (addToHistory s l).savedShapes = s.savedShapes ++ [renumber s.shapes] := by
  unfold addToHistory
  split <;> rfl

theorem saveShapes_last (s : HotSpotManager) (h : renumber s.shapes = s.shapes) :
    (saveShapes s).savedShapes.getLast? = some (saveShapes s).shapes := by
  rw [saveShapes_savedShapes, List.getLast?_concat, h]
  rfl

theorem stopDrawing_savedShapes (s : HotSpotManager) (e : PointerEvt)
    (h1 : s.drawingEnabled = true) (h2 : s.isDrawing = true) :
    (stopDrawing s e).savedShapes =
      s.savedShapes ++ [renumber s.shapes, renumber (s.shapes ++ [stopDrawingShape s e])] := by
  rw [stopDrawing_active s e h1 h2, saveShapes_savedShapes]
  simp only [drawImage_savedShapes, drawImage_shapes, addToHistory_savedShapes,
    addToHistory_shapes, List.append_assoc, List.singleton_append]

theorem stopDrawing_last (s : HotSpotManager) (e : PointerEvt) (hs : Inv s)
    (h1 : s.drawingEnabled = true) (h2 : s.isDrawing = true) :
    (stopDrawing s e).savedShapes.getLast? = some (stopDrawing s e).shapes := by
  rw [stopDrawing_savedShapes s e h1 h2, stopDrawing_shapes s e h1 h2,
    renumber_append_last _ _ hs.numbered rfl]
  simp

theorem undo_last (s : HotSpotManager) (hs : Inv s) (h : 0 ≤ s.currentState) :
    ∃ t, undo s = some t ∧ t.savedShapes.getLast? = some t.shapes := by
  have hup := hs.upper
  rcases eq_or_lt_of_le h with hc | hc
  · exact ⟨_, undo_zero s hc.symm, saveShapes_last _ rfl⟩
  · obtain ⟨snap, hsnap⟩ := arrayGet_of_lt s.history (s.currentState - 1) (by omega) (by omega)
    exact ⟨_, undo_pos s snap hc hsnap,
      saveShapes_last _ (hs.snapshots snap (arrayGet_mem _ _ _ hsnap))⟩

theorem redo_last (s : HotSpotManager) (hs : Inv s)
    (h : s.currentState < (s.history.length : Int) - 1) :
    ∃ t, redo s = some t ∧ t.savedShapes.getLast? = some t.shapes := by
  have hlo := hs.lower
  obtain ⟨snap, hsnap⟩ := arrayGet_of_lt s.history (s.currentState + 1) (by omega) (by omega)
  exact ⟨_, redo_lt s snap h hsnap,
    saveShapes_last _ (hs.snapshots snap (arrayGet_mem _ _ _ hsnap))⟩

theorem saved_handle (s t : HotSpotManager) (ev : Event) (hs : Inv s)
    (hp : s.savedShapes = [] ∨ s.savedShapes.getLast? = some s.shapes)
    (h : handle s ev = some t) :
    t.savedShapes = [] ∨ t.savedShapes.getLast? = some t.shapes := by
  cases ev with
  | addHotspotClick => cases h; exact hp
  | pointerdown e =>
    cases h
    unfold startDrawing
    split
    · exact hp
    · exact hp
  | pointermove e =>
    cases h
    unfold draw
    split
    · exact hp
    · exact hp
  | pointerup e =>
    cases h
    by_cases h1 : s.drawingEnabled = true
    swap
    · rw [stopDrawing_idle s e (Or.inl (by simpa using h1))]; exact hp
    by_cases h2 : s.isDrawing = true
    swap
    · rw [stopDrawing_idle s e (Or.inr (by simpa using h2))]; exact hp
    exact Or.inr (stopDrawing_last s e hs h1 h2)
  | undoClick =>
    change undo s = some t at h
    by_cases hc : 0 ≤ s.currentState
    · obtain ⟨t1, ht1, hl⟩ := undo_last s hs hc
      rw [ht1] at h
      cases h
      exact Or.inr hl
    · rw [undo_neg s (by omega)] at h
      cases h
      exact hp
  | redoClick =>
    change redo s = some t at h
    by_cases hc : s.currentState < (s.history.length : Int) - 1
    · obtain ⟨t1, ht1, hl⟩ := redo_last s hs hc
      rw [ht1] at h
      cases h
      exact Or.inr hl
    · rw [redo_ge s hc] at h
      cases h
      exact hp
  | shapeChange v => cases h; exact hp
  | opacityInput v => cases h; exact hp
  | imageLoad w hgt => cases h; exact hp

theorem reachable_saved {s : HotSpotManager} (h : Reachable s) :
    s.savedShapes = [] ∨ s.savedShapes.getLast? = some s.shapes := by
  induction h with
  | init cw ch u r => exact Or.inl rfl
  | step ev hprev hstep ih => exact saved_handle _ _ ev (reachable_inv hprev) ih hstep

theorem afterOne_saved :
    afterOne.savedShapes.getLast? = some [rect 200 50 400 150 1] := by
  norm_num [afterOne, sessionAfter, session, gesture, pointerAt, run, handle, constructor,
    drawImage, drawImagePlacement, JSNum.fin_div_fin, enableDrawing, startDrawing, stopDrawing,
    stopDrawingShape, getMousePos, screenToImage, addToHistory, saveShapes, updateButtonStates,
    renumber, renumberFrom, slice0, JSNum.ofNat, rect]

theorem afterTwo_saved :
    afterTwo.savedShapes.getLast? = some [rect 200 50 400 150 1, rect 80 30 160 90 2] := by
  norm_num [afterTwo, sessionAfter, session, gesture, pointerAt, run, handle, constructor,
    drawImage, drawImagePlacement, JSNum.fin_div_fin, enableDrawing, startDrawing, stopDrawing,
    stopDrawingShape, getMousePos, screenToImage, addToHistory, saveShapes, updateButtonStates,
    renumber, renumberFrom, slice0, JSNum.ofNat, rect, show (2 : Int).toNat = 2 from rfl]

theorem afterThree_fields :
    afterThree.savedShapes.getLast? =
      some [rect 200 50 400 150 1, rect 80 30 160 90 2, rect 600 250 700 300 3] ∧
    afterThree.currentState = 3 := by
  norm_num [afterThree, sessionAfter, session, gesture, pointerAt, run, handle, constructor,
    drawImage, drawImagePlacement, JSNum.fin_div_fin, enableDrawing, startDrawing, stopDrawing,
    stopDrawingShape, getMousePos, screenToImage, addToHistory, saveShapes, updateButtonStates,
    renumber, renumberFrom, slice0, JSNum.ofNat, rect, show (2 : Int).toNat = 2 from rfl,
    show (3 : Int).toNat = 3 from rfl]

theorem afterThreeUndo_saved :
    afterThreeUndo.savedShapes.getLast? =
      some [rect 200 50 400 150 1, rect 80 30 160 90 2] := by
  norm_num [afterThreeUndo, sessionAfter, session, gesture, pointerAt, run, handle, constructor,
    drawImage, drawImagePlacement, JSNum.fin_div_fin, enableDrawing, startDrawing, stopDrawing,
    stopDrawingShape, getMousePos, screenToImage, addToHistory, saveShapes, updateButtonStates,
    renumber, renumberFrom, slice0, JSNum.ofNat, rect, undo, arrayGet,
    show (2 : Int).toNat = 2 from rfl, show (3 : Int).toNat = 3 from rfl]

theorem armedDown_fields :
    armedDown.shapes = [] ∧ armedDown.savedShapes = [] ∧
    armedDown.history = [[]] ∧ armedDown.currentState = 0 ∧
    armedDown.drawingEnabled = true ∧ armedDown.isDrawing = true ∧
    stopDrawingShape armedDown (pointerAt 200 150) = rect 200 50 400 150 1 := by
  norm_num [armedDown, sessionAfter, session, pointerAt, run, handle, constructor,
    drawImage, drawImagePlacement, JSNum.fin_div_fin, enableDrawing, startDrawing,
    stopDrawingShape, getMousePos, screenToImage, JSNum.ofNat, rect]

/-! ## The fill pattern on finite boxes -/

theorem sign_fin (q : ℚ) : JSNum.sign (JSNum.fin q) = JSNum.fin (ratSign q) := by
  simp only [JSNum.sign, ratSign]
  split_ifs <;> rfl

theorem drawPatternLoop_fin (x w : JSNum) (b : ℚ) :
    ∀ (fuel : Nat) (i : ℚ), (b - i) / 10 < (fuel : ℚ) →
      ∃ lines, drawPatternLoop x w (JSNum.fin b) fuel (JSNum.fin i) = some lines := by
  intro fuel
  induction fuel with
  | zero =>
    intro i h
    have hlt : ¬ i ≤ b := by
      intro hle
      have : 0 ≤ (b - i) / 10 := div_nonneg (by linarith) (by norm_num)
      simp at h
      linarith
    exact ⟨[], by simp [drawPatternLoop, hlt]⟩
  | succ n ih =>
    intro i h
    by_cases hle : i ≤ b
    · obtain ⟨rest, hrest⟩ := ih (i + 10) (by
        push_cast at h
        have e : (b - (i + 10)) / 10 = (b - i) / 10 - 1 := by ring
        rw [e]; linarith)
      refine ⟨[CanvasCall.beginPath, CanvasCall.moveTo x (JSNum.fin i),
        CanvasCall.lineTo (x + w) (JSNum.fin i), CanvasCall.stroke] ++ rest, ?_⟩
      simp [drawPatternLoop, hle, hrest]
    · exact ⟨[], by simp [drawPatternLoop, hle]⟩

theorem drawPattern_fin (opacity : JSNum) (fuel : Nat) (x y w h : ℚ)
    (hfuel : h / 10 < (fuel : ℚ)) :
    ∃ lines, drawPattern opacity fuel (JSNum.fin x) (JSNum.fin y) (JSNum.fin w) (JSNum.fin h) =
      some ([CanvasCall.setGlobalAlpha opacity, CanvasCall.setFillStyle "yellow",
        CanvasCall.fillRect (JSNum.fin x) (JSNum.fin y) (JSNum.fin w) (JSNum.fin h),
        CanvasCall.setGlobalAlpha (JSNum.fin 1), CanvasCall.setStrokeStyle "red",
        CanvasCall.setLineWidth (JSNum.fin 2)] ++ lines) := by
  obtain ⟨lines, hl⟩ := drawPatternLoop_fin (JSNum.fin x) (JSNum.fin w) (y + h) fuel y
    (by rw [show (y + h - y) / 10 = h / 10 by ring]; exact hfuel)
  refine ⟨lines, ?_⟩
  unfold drawPattern
  rw [JSNum.fin_add_fin, hl]
  rfl

theorem ratSign_le_one (q : ℚ) : ratSign q ≤ 1 := by
  unfold ratSign
  split_ifs <;> norm_num

theorem abs_side_mul_ratSign (a b : ℚ) :
    |Min.min |a| |b| * ratSign a| = Min.min |a| |b| := by
  have hside : 0 ≤ Min.min |a| |b| := le_min (abs_nonneg a) (abs_nonneg b)
  unfold ratSign
  split_ifs with h1 h2
  · rw [mul_one, abs_of_nonneg hside]
  · rw [mul_neg, mul_one, abs_neg, abs_of_nonneg hside]
  · have ha : a = 0 := le_antisymm (not_lt.mp h1) (not_lt.mp h2)
    rw [ha]
    simp [hside]

theorem abs_side_mul_ratSign_right (a b : ℚ) :
    |Min.min |a| |b| * ratSign b| = Min.min |a| |b| := by
  rw [min_comm]
  exact abs_side_mul_ratSign b a

theorem ratSign_side_mul (a b : ℚ) (ha : a ≠ 0) (hb : b ≠ 0) :
    ratSign (Min.min |a| |b| * ratSign a) = ratSign a := by
  have hside : 0 < Min.min |a| |b| := lt_min (abs_pos.mpr ha) (abs_pos.mpr hb)
  rcases lt_or_gt_of_ne ha with h | h
  · have e : ratSign a = -1 := by
      unfold ratSign
      rw [if_neg (by linarith), if_pos h]
    rw [e]
    unfold ratSign
    rw [if_neg (by linarith), if_pos (by linarith)]
  · have e : ratSign a = 1 := by
      unfold ratSign
      rw [if_pos h]
    rw [e]
    unfold ratSign
    rw [if_pos (by linarith)]

/-! ## Rounding to doubles, evaluated -/

theorem roundHalfEven_down (x : ℚ) (f : Int) (h1 : (f : ℚ) ≤ x) (h2 : x - f < 1 / 2) :
    roundHalfEven x = f := by
  have hf : ⌊x⌋ = f := Int.floor_eq_iff.mpr ⟨h1, by linarith⟩
  unfold roundHalfEven
  rw [hf, if_pos h2]

theorem roundHalfEven_up (x : ℚ) (f : Int) (h1 : 1 / 2 < x - f) (h2 : x < f + 1) :
    roundHalfEven x = f + 1 := by
  have hf : ⌊x⌋ = f := Int.floor_eq_iff.mpr ⟨by linarith, h2⟩
  unfold roundHalfEven
  rw [hf, if_neg (by linarith), if_pos h1]

theorem round64_normal (q : ℚ) (E m : Int) (hE : -1022 ≤ E) (h1 : (2 : ℚ) ^ E ≤ |q|)
    (h2 : |q| < (2 : ℚ) ^ (E + 1)) (hm : roundHalfEven (q / 2 ^ (E - 52)) = m)
    (hr : |(m : ℚ) * 2 ^ (E - 52)| < 2 ^ (1024 : Int)) :
    round64 q = JSNum.fin ((m : ℚ) * 2 ^ (E - 52)) := by
  have hpos : (0 : ℚ) < |q| := lt_of_lt_of_le (zpow_pos (by norm_num) E) h1
  have hq : q ≠ 0 := abs_pos.mp hpos
  have hlog : Int.log 2 |q| = E := by
    have a : E ≤ Int.log 2 |q| :=
      (Int.zpow_le_iff_le_log (by norm_num) hpos).mp (by simpa using h1)
    have b : Int.log 2 |q| < E + 1 :=
      (Int.lt_zpow_iff_log_lt (by norm_num) hpos).mp (by simpa using h2)
    omega
  unfold round64
  rw [if_neg hq]
  simp only [hlog, max_eq_left hE, hm]
  rw [if_neg (not_le.mpr hr)]

theorem double220_imageAspect :
    JSNum.toDouble (JSNum.fin 220 / JSNum.fin 200) =
      JSNum.fin (2476979795053773 / 2251799813685248) := by
  rw [JSNum.fin_div_fin _ _ (by norm_num)]
  show round64 (220 / 200) = _
  rw [round64_normal (220 / 200) 0 4953959590107546 (by norm_num) (by norm_num [abs_of_pos])
    (by norm_num [abs_of_pos]) (roundHalfEven_up _ 4953959590107545 (by norm_num) (by norm_num))
    (by norm_num [abs_of_pos, abs_of_neg])]
  norm_num

theorem double220_canvasAspect :
    JSNum.toDouble (JSNum.fin 110 / JSNum.fin 100) =
      JSNum.fin (2476979795053773 / 2251799813685248) := by
  rw [JSNum.fin_div_fin _ _ (by norm_num)]
  show round64 (110 / 100) = _
  rw [round64_normal (110 / 100) 0 4953959590107546 (by norm_num) (by norm_num [abs_of_pos])
    (by norm_num [abs_of_pos]) (roundHalfEven_up _ 4953959590107545 (by norm_num) (by norm_num))
    (by norm_num [abs_of_pos, abs_of_neg])]
  norm_num

theorem double220_drawWidth :
    JSNum.toDouble (JSNum.fin 100 * JSNum.fin (2476979795053773 / 2251799813685248)) =
      JSNum.fin (7740561859543041 / 70368744177664) := by
  rw [JSNum.fin_mul_fin]
  show round64 (100 * (2476979795053773 / 2251799813685248)) = _
  rw [round64_normal (100 * (2476979795053773 / 2251799813685248)) 6 7740561859543041 (by norm_num) (by norm_num [abs_of_pos])
    (by norm_num [abs_of_pos]) (roundHalfEven_up _ 7740561859543040 (by norm_num) (by norm_num))
    (by norm_num [abs_of_pos, abs_of_neg])]
  norm_num

theorem double220_gap :
    JSNum.toDouble (JSNum.fin 110 - JSNum.fin (7740561859543041 / 70368744177664)) =
      JSNum.fin (-1 / 70368744177664) := by
  rw [JSNum.fin_sub_fin]
  show round64 (110 - (7740561859543041 / 70368744177664)) = _
  rw [round64_normal (110 - (7740561859543041 / 70368744177664)) (-46) (-4503599627370496) (by norm_num) (by norm_num [abs_of_neg])
    (by norm_num [abs_of_neg]) (roundHalfEven_down _ (-4503599627370496) (by norm_num) (by norm_num))
    (by norm_num [abs_of_pos, abs_of_neg])]
  norm_num

theorem double220_offset :
    JSNum.toDouble (JSNum.fin (-1 / 70368744177664) / JSNum.fin 2) =
      JSNum.fin (-1 / 140737488355328) := by
  rw [JSNum.fin_div_fin _ _ (by norm_num)]
  show round64 ((-1 / 70368744177664) / 2) = _
  rw [round64_normal ((-1 / 70368744177664) / 2) (-47) (-4503599627370496) (by norm_num) (by norm_num [abs_of_neg])
    (by norm_num [abs_of_neg]) (roundHalfEven_down _ (-4503599627370496) (by norm_num) (by norm_num))
    (by norm_num [abs_of_pos, abs_of_neg])]
  norm_num

theorem double220_scale :
    JSNum.toDouble (JSNum.fin (7740561859543041 / 70368744177664) / JSNum.fin 220) =
      JSNum.fin (4503599627370497 / 9007199254740992) := by
  rw [JSNum.fin_div_fin _ _ (by norm_num)]
  show round64 ((7740561859543041 / 70368744177664) / 220) = _
  rw [round64_normal ((7740561859543041 / 70368744177664) / 220) (-1) 4503599627370497 (by norm_num) (by norm_num [abs_of_pos])
    (by norm_num [abs_of_pos]) (roundHalfEven_up _ 4503599627370496 (by norm_num) (by norm_num))
    (by norm_num [abs_of_pos, abs_of_neg])]
  norm_num

theorem double300_imageAspect :
    JSNum.toDouble (JSNum.fin 300 / JSNum.fin 700) =
      JSNum.fin (7720456504063707 / 18014398509481984) := by
  rw [JSNum.fin_div_fin _ _ (by norm_num)]
  show round64 (300 / 700) = _
  rw [round64_normal (300 / 700) (-2) 7720456504063707 (by norm_num) (by norm_num [abs_of_pos])
    (by norm_num [abs_of_pos]) (roundHalfEven_down _ 7720456504063707 (by norm_num) (by norm_num))
    (by norm_num [abs_of_pos, abs_of_neg])]
  norm_num

theorem double300_canvasAspect :
    JSNum.toDouble (JSNum.fin 400 / JSNum.fin 300) =
      JSNum.fin (6004799503160661 / 4503599627370496) := by
  rw [JSNum.fin_div_fin _ _ (by norm_num)]
  show round64 (400 / 300) = _
  rw [round64_normal (400 / 300) 0 6004799503160661 (by norm_num) (by norm_num [abs_of_pos])
    (by norm_num [abs_of_pos]) (roundHalfEven_down _ 6004799503160661 (by norm_num) (by norm_num))
    (by norm_num [abs_of_pos, abs_of_neg])]
  norm_num

theorem double300_drawWidth :
    JSNum.toDouble (JSNum.fin 300 * JSNum.fin (7720456504063707 / 18014398509481984)) =
      JSNum.fin (1130926245712457 / 8796093022208) := by
  rw [JSNum.fin_mul_fin]
  show round64 (300 * (7720456504063707 / 18014398509481984)) = _
  rw [round64_normal (300 * (7720456504063707 / 18014398509481984)) 7 4523704982849828 (by norm_num) (by norm_num [abs_of_pos])
    (by norm_num [abs_of_pos]) (roundHalfEven_down _ 4523704982849828 (by norm_num) (by norm_num))
    (by norm_num [abs_of_pos, abs_of_neg])]
  norm_num

theorem double300_gap :
    JSNum.toDouble (JSNum.fin 400 - JSNum.fin (1130926245712457 / 8796093022208)) =
      JSNum.fin (2387510963170743 / 8796093022208) := by
  rw [JSNum.fin_sub_fin]
  show round64 (400 - (1130926245712457 / 8796093022208)) = _
  rw [round64_normal (400 - (1130926245712457 / 8796093022208)) 8 4775021926341486 (by norm_num) (by norm_num [abs_of_pos])
    (by norm_num [abs_of_pos]) (roundHalfEven_down _ 4775021926341486 (by norm_num) (by norm_num))
    (by norm_num [abs_of_pos, abs_of_neg])]
  norm_num

theorem double300_offset :
    JSNum.toDouble (JSNum.fin (2387510963170743 / 8796093022208) / JSNum.fin 2) =
      JSNum.fin (2387510963170743 / 17592186044416) := by
  rw [JSNum.fin_div_fin _ _ (by norm_num)]
  show round64 ((2387510963170743 / 8796093022208) / 2) = _
  rw [round64_normal ((2387510963170743 / 8796093022208) / 2) 7 4775021926341486 (by norm_num) (by norm_num [abs_of_pos])
    (by norm_num [abs_of_pos]) (roundHalfEven_down _ 4775021926341486 (by norm_num) (by norm_num))
    (by norm_num [abs_of_pos, abs_of_neg])]
  norm_num

theorem double300_scale :
    JSNum.toDouble (JSNum.fin (1130926245712457 / 8796093022208) / JSNum.fin 300) =
      JSNum.fin (3860228252031853 / 9007199254740992) := by
  rw [JSNum.fin_div_fin _ _ (by norm_num)]
  show round64 ((1130926245712457 / 8796093022208) / 300) = _
  rw [round64_normal ((1130926245712457 / 8796093022208) / 300) (-2) 7720456504063706 (by norm_num) (by norm_num [abs_of_pos])
    (by norm_num [abs_of_pos]) (roundHalfEven_down _ 7720456504063706 (by norm_num) (by norm_num))
    (by norm_num [abs_of_pos, abs_of_neg])]
  norm_num

theorem double800_imageAspect :
    JSNum.toDouble (JSNum.fin 800 / JSNum.fin 300) =
      JSNum.fin (6004799503160661 / 2251799813685248) := by
  rw [JSNum.fin_div_fin _ _ (by norm_num)]
  show round64 (800 / 300) = _
  rw [round64_normal (800 / 300) 1 6004799503160661 (by norm_num) (by norm_num [abs_of_pos])
    (by norm_num [abs_of_pos]) (roundHalfEven_down _ 6004799503160661 (by norm_num) (by norm_num))
    (by norm_num [abs_of_pos, abs_of_neg])]
  norm_num

theorem double800_canvasAspect :
    JSNum.toDouble (JSNum.fin 400 / JSNum.fin 300) =
      JSNum.fin (6004799503160661 / 4503599627370496) := by
  rw [JSNum.fin_div_fin _ _ (by norm_num)]
  show round64 (400 / 300) = _
  rw [round64_normal (400 / 300) 0 6004799503160661 (by norm_num) (by norm_num [abs_of_pos])
    (by norm_num [abs_of_pos]) (roundHalfEven_down _ 6004799503160661 (by norm_num) (by norm_num))
    (by norm_num [abs_of_pos, abs_of_neg])]
  norm_num

theorem double800_drawHeight :
    JSNum.toDouble (JSNum.fin 400 / JSNum.fin (6004799503160661 / 2251799813685248)) =
      JSNum.fin 150 := by
  rw [JSNum.fin_div_fin _ _ (by norm_num)]
  show round64 (400 / (6004799503160661 / 2251799813685248)) = _
  rw [round64_normal (400 / (6004799503160661 / 2251799813685248)) 7 5277655813324800 (by norm_num) (by norm_num [abs_of_pos])
    (by norm_num [abs_of_pos]) (roundHalfEven_down _ 5277655813324800 (by norm_num) (by norm_num))
    (by norm_num [abs_of_pos, abs_of_neg])]
  norm_num

theorem double800_gap :
    JSNum.toDouble (JSNum.fin 300 - JSNum.fin 150) =
      JSNum.fin 150 := by
  rw [JSNum.fin_sub_fin]
  show round64 (300 - 150) = _
  rw [round64_normal (300 - 150) 7 5277655813324800 (by norm_num) (by norm_num [abs_of_pos])
    (by norm_num [abs_of_pos]) (roundHalfEven_down _ 5277655813324800 (by norm_num) (by norm_num))
    (by norm_num [abs_of_pos, abs_of_neg])]
  norm_num

theorem double800_offset :
    JSNum.toDouble (JSNum.fin 150 / JSNum.fin 2) =
      JSNum.fin 75 := by
  rw [JSNum.fin_div_fin _ _ (by norm_num)]
  show round64 (150 / 2) = _
  rw [round64_normal (150 / 2) 6 5277655813324800 (by norm_num) (by norm_num [abs_of_pos])
    (by norm_num [abs_of_pos]) (roundHalfEven_down _ 5277655813324800 (by norm_num) (by norm_num))
    (by norm_num [abs_of_pos, abs_of_neg])]
  norm_num

theorem double800_scale :
    JSNum.toDouble (JSNum.fin 400 / JSNum.fin 800) =
      JSNum.fin (1 / 2) := by
  rw [JSNum.fin_div_fin _ _ (by norm_num)]
  show round64 (400 / 800) = _
  rw [round64_normal (400 / 800) (-1) 4503599627370496 (by norm_num) (by norm_num [abs_of_pos])
    (by norm_num [abs_of_pos]) (roundHalfEven_down _ 4503599627370496 (by norm_num) (by norm_num))
    (by norm_num [abs_of_pos, abs_of_neg])]
  norm_num

theorem double86_imageAspect :
    JSNum.toDouble (JSNum.fin 800 / JSNum.fin 600) =
      JSNum.fin (6004799503160661 / 4503599627370496) := by
  rw [JSNum.fin_div_fin _ _ (by norm_num)]
  show round64 (800 / 600) = _
  rw [round64_normal (800 / 600) 0 6004799503160661 (by norm_num) (by norm_num [abs_of_pos])
    (by norm_num [abs_of_pos]) (roundHalfEven_down _ 6004799503160661 (by norm_num) (by norm_num))
    (by norm_num [abs_of_pos, abs_of_neg])]
  norm_num

theorem double86_canvasAspect :
    JSNum.toDouble (JSNum.fin 400 / JSNum.fin 300) =
      JSNum.fin (6004799503160661 / 4503599627370496) := by
  rw [JSNum.fin_div_fin _ _ (by norm_num)]
  show round64 (400 / 300) = _
  rw [round64_normal (400 / 300) 0 6004799503160661 (by norm_num) (by norm_num [abs_of_pos])
    (by norm_num [abs_of_pos]) (roundHalfEven_down _ 6004799503160661 (by norm_num) (by norm_num))
    (by norm_num [abs_of_pos, abs_of_neg])]
  norm_num

theorem double86_drawWidth :
    JSNum.toDouble (JSNum.fin 300 * JSNum.fin (6004799503160661 / 4503599627370496)) =
      JSNum.fin 400 := by
  rw [JSNum.fin_mul_fin]
  show round64 (300 * (6004799503160661 / 4503599627370496)) = _
  rw [round64_normal (300 * (6004799503160661 / 4503599627370496)) 8 7036874417766400 (by norm_num) (by norm_num [abs_of_pos])
    (by norm_num [abs_of_pos]) (roundHalfEven_up _ 7036874417766399 (by norm_num) (by norm_num))
    (by norm_num [abs_of_pos, abs_of_neg])]
  norm_num

theorem double86_gap :
    JSNum.toDouble (JSNum.fin 400 - JSNum.fin 400) =
      JSNum.fin 0 := by
  rw [JSNum.fin_sub_fin]
  show round64 (400 - 400) = _
  norm_num [round64]

theorem double86_offset :
    JSNum.toDouble (JSNum.fin 0 / JSNum.fin 2) =
      JSNum.fin 0 := by
  rw [JSNum.fin_div_fin _ _ (by norm_num)]
  show round64 (0 / 2) = _
  norm_num [round64]

theorem double86_scale :
    JSNum.toDouble (JSNum.fin 400 / JSNum.fin 800) =
      JSNum.fin (1 / 2) := by
  rw [JSNum.fin_div_fin _ _ (by norm_num)]
  show round64 (400 / 800) = _
  rw [round64_normal (400 / 800) (-1) 4503599627370496 (by norm_num) (by norm_num [abs_of_pos])
    (by norm_num [abs_of_pos]) (roundHalfEven_down _ 4503599627370496 (by norm_num) (by norm_num))
    (by norm_num [abs_of_pos, abs_of_neg])]
  norm_num

theorem double300_product :
    JSNum.toDouble (JSNum.fin 300 * JSNum.fin 300) =
      JSNum.fin 90000 := by
  rw [JSNum.fin_mul_fin]
  show round64 (300 * 300) = _
  rw [round64_normal (300 * 300) 16 6184752906240000 (by norm_num) (by norm_num [abs_of_pos])
    (by norm_num [abs_of_pos]) (roundHalfEven_down _ 6184752906240000 (by norm_num) (by norm_num))
    (by norm_num [abs_of_pos, abs_of_neg])]
  norm_num

theorem double300_reference :
    JSNum.toDouble (JSNum.fin 90000 / JSNum.fin 700) =
      JSNum.fin (4523704982849829 / 35184372088832) := by
  rw [JSNum.fin_div_fin _ _ (by norm_num)]
  show round64 (90000 / 700) = _
  rw [round64_normal (90000 / 700) 7 4523704982849829 (by norm_num) (by norm_num [abs_of_pos])
    (by norm_num [abs_of_pos]) (roundHalfEven_up _ 4523704982849828 (by norm_num) (by norm_num))
    (by norm_num [abs_of_pos, abs_of_neg])]
  norm_num

theorem drawImagePlacement64_220 :
    drawImagePlacement64 (JSNum.fin 220) (JSNum.fin 200) (JSNum.fin 110) (JSNum.fin 100) =
      { drawWidth := JSNum.fin (7740561859543041 / 70368744177664)
        drawHeight := JSNum.fin 100
        offsetX := JSNum.fin (-1 / 140737488355328)
        offsetY := JSNum.fin 0
        scale := JSNum.fin (4503599627370497 / 9007199254740992) } := by
  simp only [drawImagePlacement64, drawImagePlacementWith, double220_imageAspect,
    double220_canvasAspect, double220_drawWidth, double220_gap, double220_offset,
    double220_scale, JSNum.gt_fin_fin]
  norm_num

theorem drawImagePlacement64_300 :
    drawImagePlacement64 (JSNum.fin 300) (JSNum.fin 700) (JSNum.fin 400) (JSNum.fin 300) =
      { drawWidth := JSNum.fin (1130926245712457 / 8796093022208)
        drawHeight := JSNum.fin 300
        offsetX := JSNum.fin (2387510963170743 / 17592186044416)
        offsetY := JSNum.fin 0
        scale := JSNum.fin (3860228252031853 / 9007199254740992) } := by
  simp only [drawImagePlacement64, drawImagePlacementWith, double300_imageAspect,
    double300_canvasAspect, double300_drawWidth, double300_gap, double300_offset,
    double300_scale, JSNum.gt_fin_fin]
  norm_num

theorem drawImagePlacement64_800 :
    drawImagePlacement64 (JSNum.fin 800) (JSNum.fin 300) (JSNum.fin 400) (JSNum.fin 300) =
      { drawWidth := JSNum.fin 400
        drawHeight := JSNum.fin 150
        offsetX := JSNum.fin 0
        offsetY := JSNum.fin 75
        scale := JSNum.fin (1 / 2) } := by
  simp only [drawImagePlacement64, drawImagePlacementWith, double800_imageAspect,
    double800_canvasAspect, double800_drawHeight, double800_gap, double800_offset,
    double800_scale, JSNum.gt_fin_fin]
  norm_num

theorem drawImagePlacement64_86 :
    drawImagePlacement64 (JSNum.fin 800) (JSNum.fin 600) (JSNum.fin 400) (JSNum.fin 300) =
      { drawWidth := JSNum.fin 400
        drawHeight := JSNum.fin 300
        offsetX := JSNum.fin 0
        offsetY := JSNum.fin 0
        scale := JSNum.fin (1 / 2) } := by
  simp only [drawImagePlacement64, drawImagePlacementWith, double86_imageAspect,
    double86_canvasAspect, double86_drawWidth, double86_gap, double86_offset,
    double86_scale, JSNum.gt_fin_fin]
  norm_num

theorem drawImagePlacementWith_exact (iw ih cw ch : JSNum) :
    drawImagePlacementWith (fun v => v) iw ih cw ch = drawImagePlacement iw ih cw ch := rfl

theorem drawImagePlacementWith_fit (rounding : JSNum → JSNum) (iw ih cw ch : JSNum) :
    ((drawImagePlacementWith rounding iw ih cw ch).drawWidth = cw ∧
      (drawImagePlacementWith rounding iw ih cw ch).offsetX = JSNum.fin 0) ∨
    ((drawImagePlacementWith rounding iw ih cw ch).drawHeight = ch ∧
      (drawImagePlacementWith rounding iw ih cw ch).offsetY = JSNum.fin 0) := by
  unfold drawImagePlacementWith
  simp only
  split
  · exact Or.inl ⟨rfl, rfl⟩
  · exact Or.inr ⟨rfl, rfl⟩

theorem drawImagePlacementWith_scale (rounding : JSNum → JSNum) (iw ih cw ch : JSNum) :
    (drawImagePlacementWith rounding iw ih cw ch).scale =
      rounding ((drawImagePlacementWith rounding iw ih cw ch).drawWidth / iw) := by
  unfold drawImagePlacementWith
  simp only
  split <;> rfl

/-! ## The repaint on a `NaN` placement -/

theorem JSNum.mul_nan (a : JSNum) : a * JSNum.nan = JSNum.nan := by
  cases a <;> rfl

theorem JSNum.nan_add (a : JSNum) : JSNum.nan + a = JSNum.nan := by
  cases a <;> rfl

theorem JSNum.nan_sub (a : JSNum) : JSNum.nan - a = JSNum.nan := by
  cases a <;> rfl

theorem JSNum.nan_div (a : JSNum) : JSNum.nan / a = JSNum.nan := by
  cases a <;> rfl

theorem JSNum.nan_mul (a : JSNum) : JSNum.nan * a = JSNum.nan := by
  cases a <;> rfl

theorem JSNum.le_nan_left (a : JSNum) : JSNum.le JSNum.nan a = false := by
  cases a <;> rfl

theorem JSNum.lt_nan_right (a : JSNum) : JSNum.lt a JSNum.nan = false := by
  cases a <;> rfl

theorem drawShapeBox_nan (s : HotSpotManager) (shape : Shape) (hS : s.imageScale = JSNum.nan) :
    drawShapeBox s shape =
      { startX := JSNum.nan, startY := JSNum.nan, width := JSNum.nan, height := JSNum.nan } := by
  simp only [drawShapeBox, imageToScreen, hS, JSNum.mul_nan, JSNum.nan_add]

theorem drawPatternLoop_nan (x w bound : JSNum) (fuel : Nat) :
    drawPatternLoop x w bound fuel JSNum.nan = some [] := by
  cases fuel <;> simp [drawPatternLoop, JSNum.le_nan_left]

theorem drawPatternInCircleLoop_nan (sqrt : JSNum → JSNum) (cx cy r : JSNum) (fuel : Nat) :
    drawPatternInCircleLoop sqrt cx cy r fuel JSNum.nan = some [] := by
  cases fuel <;> simp [drawPatternInCircleLoop, JSNum.le_nan_left]

theorem drawPattern_nan (opacity : JSNum) (fuel : Nat) (x w h : JSNum) :
    ∃ calls, drawPattern opacity fuel x JSNum.nan w h = some calls := by
  unfold drawPattern
  rw [drawPatternLoop_nan]
  exact ⟨_, rfl⟩

theorem drawShapeSwitch_nan (sqrt : JSNum → JSNum) (fuel : Nat) (s : HotSpotManager)
    (shape : Shape) (hS : s.imageScale = JSNum.nan) :
    ∃ calls, drawShapeSwitch sqrt fuel s shape = some calls := by
  unfold drawShapeSwitch
  simp only [drawShapeBox_nan s shape hS]
  split
  · obtain ⟨calls, h⟩ := drawPattern_nan s.opacity fuel JSNum.nan JSNum.nan JSNum.nan
    rw [h]
    exact ⟨_, rfl⟩
  · split
    · obtain ⟨calls, h⟩ := drawPattern_nan s.opacity fuel JSNum.nan
        (JSNum.min (JSNum.abs JSNum.nan) (JSNum.abs JSNum.nan) * JSNum.sign JSNum.nan)
        (JSNum.min (JSNum.abs JSNum.nan) (JSNum.abs JSNum.nan) * JSNum.sign JSNum.nan)
      rw [h]
      exact ⟨_, rfl⟩
    · split
      · rw [JSNum.nan_add, JSNum.nan_sub, drawPatternInCircleLoop_nan]
        exact ⟨_, rfl⟩
      · split
        · obtain ⟨calls, h⟩ := drawPattern_nan s.opacity fuel JSNum.nan JSNum.nan JSNum.nan
          rw [h]
          exact ⟨_, rfl⟩
        · exact ⟨_, rfl⟩

theorem drawShapeCalls_nan (sqrt : JSNum → JSNum) (fuel : Nat) (s : HotSpotManager)
    (shape : Shape) (hS : s.imageScale = JSNum.nan) :
    ∃ calls, drawShapeCalls sqrt fuel s shape = some calls := by
  obtain ⟨body, h⟩ := drawShapeSwitch_nan sqrt fuel s shape hS
  unfold drawShapeCalls
  rw [h]
  exact ⟨_, rfl⟩

theorem drawShapesCalls_nan (sqrt : JSNum → JSNum) (fuel : Nat) (s : HotSpotManager)
    (hS : s.imageScale = JSNum.nan) (shapes : List Shape) :
    ∃ calls, drawShapesCalls sqrt fuel s shapes = some calls := by
  induction shapes with
  | nil => exact ⟨[], rfl⟩
  | cons shape rest ih =>
    obtain ⟨calls, h⟩ := drawShapeCalls_nan sqrt fuel s shape hS
    obtain ⟨more, hm⟩ := ih
    refine ⟨calls ++ more, ?_⟩
    simp only [drawShapesCalls, h, hm]
    rfl

theorem drawImagePlacement_scale_no_image (cw ch : JSNum) :
    (drawImagePlacement (JSNum.fin 0) (JSNum.fin 0) cw ch).scale = JSNum.nan := by
  have hia : JSNum.fin 0 / JSNum.fin 0 = JSNum.nan := by
    rw [JSNum.div_def]; simp [JSNum.div]
  simp only [drawImagePlacement, hia, JSNum.gt, JSNum.lt_nan_right, JSNum.mul_nan,
    JSNum.nan_div]
  rfl

theorem drawImage_scale_no_image (s : HotSpotManager) (hw : s.imageWidth = 0)
    (hh : s.imageHeight = 0) : (drawImage s).imageScale = JSNum.nan := by
  simp only [drawImage, JSNum.ofNat, hw, hh, Nat.cast_zero]
  exact drawImagePlacement_scale_no_image _ _

theorem stopDrawing_imageScale (s : HotSpotManager) (e : PointerEvt)
    (h1 : s.drawingEnabled = true) (h2 : s.isDrawing = true) (hw : s.imageWidth = 0)
    (hh : s.imageHeight = 0) : (stopDrawing s e).imageScale = JSNum.nan := by
  have e1 : ∀ l, (addToHistory s l).imageWidth = s.imageWidth := by
    intro l
    unfold addToHistory
    split <;> rfl
  have e2 : ∀ l, (addToHistory s l).imageHeight = s.imageHeight := by
    intro l
    unfold addToHistory
    split <;> rfl
  rw [stopDrawing_active s e h1 h2]
  show (drawImage
    { addToHistory s (s.shapes ++ [stopDrawingShape s e]) with
      shapes := (addToHistory s (s.shapes ++ [stopDrawingShape s e])).shapes ++
        [stopDrawingShape s e]
      isDrawing := false
      drawingEnabled := false }).imageScale = JSNum.nan
  exact drawImage_scale_no_image _ ((e1 (s.shapes ++ [stopDrawingShape s e])).trans hw)
    ((e2 (s.shapes ++ [stopDrawingShape s e])).trans hh)

theorem afterUndoArmed_pointerScaled :
    stopDrawingShape afterUndoArmed pointerScaled = rect 600 250 700 300 2 := by
  norm_num [afterUndoArmed, sessionAfter, session, gesture, pointerAt, pointerScaled, run,
    handle, constructor, drawImage, drawImagePlacement, JSNum.fin_div_fin, enableDrawing,
    startDrawing, stopDrawing, stopDrawingShape, getMousePos, screenToImage, addToHistory,
    saveShapes, updateButtonStates, renumber, renumberFrom, slice0, JSNum.ofNat, rect, undo,
    arrayGet, show (2 : Int).toNat = 2 from rfl]

end HotSpot

namespace HotSpot

theorem numbered_getElem? (l : List Shape) (h : indices l = List.range' 1 l.length)
    (i : Nat) (sh : Shape) (hi : l[i]? = some sh) : sh.index = i + 1 := by
  have h1 : (indices l)[i]? = some sh.index := by
    simp [indices, hi]
  have hlt : i < l.length := by
    rcases Nat.lt_or_ge i l.length with h2 | h2
    · exact h2
    · rw [List.getElem?_eq_none h2] at hi; cases hi
  rw [h, List.getElem?_range' 1 1 hlt] at h1
  simp only [Option.some.injEq] at h1
  omega

/-- C1: in every reachable state in which undo is available (`currentState >= 0`),
`undo` followed by `redo` both run without throwing and leave `this.shapes` equal,
as a list of shape values with their indices, to what it was before the undo, and
leave `currentState` and `history` as they were. -/
theorem undo_then_redo_restores (s : HotSpotManager) (hr : Reachable s)
    (h : 0 ≤ s.currentState) :
    ∃ s1 s2, undo s = some s1 ∧ redo s1 = some s2 ∧ s2.shapes = s.shapes ∧
      s2.currentState = s.currentState ∧ s2.history = s.history := by
  have hs := reachable_inv hr
  have hup := hs.upper
  have hact := hs.active h
  rcases eq_or_lt_of_le h with hc | hc
  · have h1 := undo_zero s hc.symm
    have h2 := redo_lt (saveShapes (updateButtonStates (drawImage
      { s with currentState := s.currentState - 1, shapes := [] }))) s.shapes
      (by simp; omega) (by simpa using hact)
    exact ⟨_, _, h1, h2, by simp⟩
  · obtain ⟨snap, hsnap⟩ := arrayGet_of_lt s.history (s.currentState - 1) (by omega) (by omega)
    have h1 := undo_pos s snap hc hsnap
    have h2 := redo_lt (saveShapes (updateButtonStates (drawImage
      { s with currentState := s.currentState - 1, shapes := snap }))) s.shapes
      (by simp; omega) (by simpa using hact)
    exact ⟨_, _, h1, h2, by simp⟩

/-- Witness of C1: after loading an 800x300 image and drawing two rectangles the
active list holds both with pointer 2; undo then redo gives back that list, pointer 2
and the same log. -/
theorem undo_then_redo_restores_witness :
    afterTwo.shapes = [rect 200 50 400 150 1, rect 80 30 160 90 2] ∧
    (0 : Int) ≤ afterTwo.currentState ∧
    ∃ s1 s2, undo afterTwo = some s1 ∧ redo s1 = some s2 ∧ s2.shapes = afterTwo.shapes ∧
      s2.currentState = afterTwo.currentState ∧ s2.history = afterTwo.history :=
  ⟨afterTwo_fields.1, by rw [afterTwo_fields.2.2]; decide,
    undo_then_redo_restores afterTwo (reachable_sessionAfter _)
      (by rw [afterTwo_fields.2.2]; decide)⟩

/-- C2: when the pointer `p` is not at the end of the log (`0 <= p < history.length - 1`,
in a reachable state or any other), a commit leaves the log equal to its first `p + 1`
snapshots followed by the one new renumbered snapshot, and a following `redo` changes
nothing.  This holds for `addToHistory` with any argument, and for the commit made by
`stopDrawing` at the end of a gesture, whose new snapshot is the renumbered active
list extended by the new shape. -/
theorem commit_truncates_redo_branch (s : HotSpotManager) (l : List Shape) (e : PointerEvt)
    (h0 : 0 ≤ s.currentState) (h1 : s.currentState < (s.history.length : Int) - 1) :
    ((addToHistory s l).history = s.history.take (s.currentState.toNat + 1) ++ [renumber l] ∧
      redo (addToHistory s l) = some (addToHistory s l)) ∧
    (s.drawingEnabled = true → s.isDrawing = true →
      (stopDrawing s e).history =
        s.history.take (s.currentState.toNat + 1) ++
          [renumber (s.shapes ++ [stopDrawingShape s e])] ∧
      redo (stopDrawing s e) = some (stopDrawing s e)) := by
  have hne : s.history ≠ [] := by
    intro h; rw [h] at h1; simp at h1; omega
  have htake : (s.currentState + 1).toNat = s.currentState.toNat + 1 := by omega
  refine ⟨⟨?_, ?_⟩, ?_⟩
  · rw [addToHistory_history s l hne, slice0_of_nonneg _ _ (by omega), htake]
  · exact redo_ge _ (by
      have h := addToHistory_end s l hne (by omega) (by omega)
      omega)
  · intro hd hi
    refine ⟨?_, ?_⟩
    · rw [stopDrawing_history s e hne hd hi, slice0_of_nonneg _ _ (by omega), htake]
    · refine redo_ge _ ?_
      have h := stopDrawing_end s e hne (by omega) (by omega) hd hi
      omega

/-- Witness of C2: the log is `[[], [A], [A, B]]` and one undo has moved the pointer to
1; the commit of a third rectangle `C` at the end of a drag leaves the log
`[[], [A], [A, C]]`, and redo then changes nothing. -/
theorem commit_truncates_redo_branch_witness :
    afterUndoArmed.history =
      [[], [rect 200 50 400 150 1], [rect 200 50 400 150 1, rect 80 30 160 90 2]] ∧
    afterUndoArmed.currentState = 1 ∧
    (stopDrawing afterUndoArmed (pointerAt 350 225)).history =
      [[], [rect 200 50 400 150 1], [rect 200 50 400 150 1, rect 600 250 700 300 2]] ∧
    redo (stopDrawing afterUndoArmed (pointerAt 350 225)) =
      some (stopDrawing afterUndoArmed (pointerAt 350 225)) := by
  obtain ⟨hS, hH, hC, hD, hI, hN⟩ := afterUndoArmed_fields
  have h := (commit_truncates_redo_branch afterUndoArmed [] (pointerAt 350 225)
    (by rw [hC]; decide) (by rw [hC, hH]; decide)).2 hD hI
  refine ⟨hH, hC, ?_, h.2⟩
  rw [h.1, hN, hS, hH, hC]
  simp [renumber, renumberFrom, rect]

/-- C3: after `addToHistory` runs in a reachable state, `currentState` equals
`history.length - 1`, the redo button is disabled and `redo` changes nothing; the
same holds after the commit made by `stopDrawing` at the end of a gesture.  And `N`
successive calls of `addToHistory` on the constructor state (log `[[]]`, pointer 0)
leave the pointer equal to `N` and the log with `N + 1` snapshots. -/
theorem commit_moves_pointer_to_end :
    (∀ (s : HotSpotManager), Reachable s → ∀ (l : List Shape),
      (addToHistory s l).currentState = ((addToHistory s l).history.length : Int) - 1 ∧
      (addToHistory s l).redoBtnDisabled = true ∧
      redo (addToHistory s l) = some (addToHistory s l)) ∧
    (∀ (s : HotSpotManager), Reachable s → ∀ (e : PointerEvt),
      s.drawingEnabled = true → s.isDrawing = true →
      (stopDrawing s e).currentState = ((stopDrawing s e).history.length : Int) - 1 ∧
      redo (stopDrawing s e) = some (stopDrawing s e)) ∧
    (∀ (cw ch : Nat) (u r : Bool) (ls : List (List Shape)),
      (ls.foldl addToHistory (constructor cw ch u r)).currentState = (ls.length : Int) ∧
      (ls.foldl addToHistory (constructor cw ch u r)).history.length = ls.length + 1) := by
  refine ⟨?_, ?_, ?_⟩
  · intro s hr l
    have hs := reachable_inv hr
    have h := addToHistory_end s l hs.nonempty hs.lower hs.upper
    refine ⟨h.1, ?_, redo_ge _ (by omega)⟩
    have hb : (addToHistory s l).redoBtnDisabled =
        decide ((addToHistory s l).currentState ≥ ((addToHistory s l).history.length : Int) - 1) := by
      have hlen : ¬ (s.currentState = -1 ∧ s.history.length = 0) := by
        rintro ⟨_, h0⟩
        exact hs.nonempty (List.length_eq_zero.mp h0)
      simp only [addToHistory, if_neg hlen]
      rfl
    rw [hb]
    exact decide_eq_true (by omega)
  · intro s hr e hd hi
    have hs := reachable_inv hr
    have h := stopDrawing_end s e hs.nonempty hs.lower hs.upper hd hi
    exact ⟨h.1, redo_ge _ (by omega)⟩
  · intro cw ch u r ls
    have h := foldl_addToHistory ls (constructor cw ch u r) (by simp [constructor])
      (by simp [constructor])
    have hc : (constructor cw ch u r).currentState = 0 := rfl
    have hl : (constructor cw ch u r).history.length = 1 := rfl
    rw [hc, hl] at h
    refine ⟨by omega, by omega⟩

/-- Witness of C3: a commit in the reachable state `afterUndoArmed` (pointer 1, three
snapshots) leaves the pointer at the last index of the new log and redo disabled. -/
theorem commit_moves_pointer_to_end_witness :
    (addToHistory afterUndoArmed [rect 0 0 1 1 7]).currentState =
      ((addToHistory afterUndoArmed [rect 0 0 1 1 7]).history.length : Int) - 1 ∧
    (addToHistory afterUndoArmed [rect 0 0 1 1 7]).redoBtnDisabled = true ∧
    redo (addToHistory afterUndoArmed [rect 0 0 1 1 7]) =
      some (addToHistory afterUndoArmed [rect 0 0 1 1 7]) :=
  commit_moves_pointer_to_end.1 afterUndoArmed (reachable_sessionAfter _) [rect 0 0 1 1 7]

/-- C4: in every reachable state the active list `this.shapes` carries the indices
1, 2, ..., N in order (the shape at 0-based position `i` has index `i + 1`), and so
does every snapshot stored in `history`. -/
theorem indices_contiguous (s : HotSpotManager) (hr : Reachable s) :
    (indices s.shapes = List.range' 1 s.shapes.length ∧
      ∀ (i : Nat) (sh : Shape), s.shapes[i]? = some sh → sh.index = i + 1) ∧
    ∀ snap ∈ s.history,
      indices snap = List.range' 1 snap.length ∧
      ∀ (i : Nat) (sh : Shape), snap[i]? = some sh → sh.index = i + 1 := by
  have hs := reachable_inv hr
  have h1 := (renumber_fixed_iff s.shapes).mp hs.numbered
  refine ⟨⟨h1, numbered_getElem? _ h1⟩, ?_⟩
  intro snap hmem
  have h2 := (renumber_fixed_iff snap).mp (hs.snapshots snap hmem)
  exact ⟨h2, numbered_getElem? _ h2⟩

/-- Witness of C4: the reachable state `afterTwo` has the active list `[A, B]` with
indices `[1, 2]`. -/
theorem indices_contiguous_witness :
    indices afterTwo.shapes = [1, 2] ∧
    (indices afterTwo.shapes = List.range' 1 afterTwo.shapes.length ∧
      ∀ (i : Nat) (sh : Shape), afterTwo.shapes[i]? = some sh → sh.index = i + 1) ∧
    ∀ snap ∈ afterTwo.history,
      indices snap = List.range' 1 snap.length ∧
      ∀ (i : Nat) (sh : Shape), snap[i]? = some sh → sh.index = i + 1 :=
  ⟨by rw [afterTwo_fields.1]; rfl, indices_contiguous afterTwo (reachable_sessionAfter _)⟩

/-- C5 (the code departs from the claim): with an 800x300 image loaded, one undo at
the initial snapshot moves the pointer to -1; the commit of the next drawn shape then
slices the log down to nothing before it appends, so the reachable state it leaves has
the log `[[A]]` with pointer 0: the first snapshot holds a shape and is not empty. -/
theorem first_snapshot_not_empty_after_undo_and_commit :
    Reachable afterUndoCommit ∧
    afterUndoCommit.history = [[rect 200 50 400 150 1]] ∧
    afterUndoCommit.currentState = 0 ∧
    arrayGet afterUndoCommit.history 0 ≠ some [] := by
  refine ⟨reachable_sessionAfter _, afterUndoCommit_fields.1, afterUndoCommit_fields.2.1, ?_⟩
  rw [afterUndoCommit_fields.1]
  simp [arrayGet]

/-- C6 as stated fails: in the constructor state the pointer is 0 and `undo` moves it
to -1, so undo at the initial snapshot is not a no-op and the pointer does go below 0. -/
theorem undo_at_initial_snapshot_moves_pointer :
    Reachable session ∧ session.currentState = 0 ∧ undo session ≠ some session ∧
    Option.map HotSpotManager.currentState (undo session) = some (-1) := by
  refine ⟨Reachable.init 400 300 false false, rfl, ?_, ?_⟩
  · rw [undo_zero session rfl]
    intro h
    have h2 := congrArg HotSpotManager.currentState (Option.some.inj h)
    simp [session, constructor] at h2
  · rw [undo_zero session rfl]
    simp [session, constructor]

/-- C6 as amended: in every reachable state with `currentState = 0`, `undo` moves the
pointer to -1, empties `this.shapes` and leaves `history` unchanged; `undo` is a no-op
in every reachable state with `currentState = -1`; and `currentState >= -1` in every
reachable state. -/
theorem undo_at_boundary (s : HotSpotManager) (hr : Reachable s) :
    (s.currentState = 0 →
      ∃ t, undo s = some t ∧ t.currentState = -1 ∧ t.shapes = [] ∧ t.history = s.history) ∧
    (s.currentState = -1 → undo s = some s) ∧
    -1 ≤ s.currentState := by
  refine ⟨?_, ?_, (reachable_inv hr).lower⟩
  · intro h
    refine ⟨_, undo_zero s h, ?_, ?_, ?_⟩
    · simp [h]
    · simp
    · simp
  · intro h
    exact undo_neg s (by omega)

/-- Witness of C6 as amended, at the constructor state of the session. -/
theorem undo_at_boundary_witness :
    (session.currentState = 0 →
      ∃ t, undo session = some t ∧ t.currentState = -1 ∧ t.shapes = [] ∧
        t.history = session.history) ∧
    (session.currentState = -1 → undo session = some session) ∧
    -1 ≤ session.currentState :=
  undo_at_boundary session (Reachable.init 400 300 false false)

/-- C7: in every reachable state, if `currentState = history.length - 1` then `redo`
changes nothing; otherwise `redo` runs without throwing, adds exactly one to
`currentState`, sets `this.shapes` to the snapshot `history[currentState]` at the new
pointer and leaves `history` unchanged.  So `redo` is a no-op exactly when the pointer
is at the last index. -/
theorem redo_noop_iff_at_end (s : HotSpotManager) (hr : Reachable s) :
    (s.currentState = (s.history.length : Int) - 1 → redo s = some s) ∧
    (s.currentState ≠ (s.history.length : Int) - 1 →
      ∃ t, redo s = some t ∧ t.currentState = s.currentState + 1 ∧
        arrayGet s.history (s.currentState + 1) = some t.shapes ∧
        t.history = s.history) ∧
    (redo s = some s ↔ s.currentState = (s.history.length : Int) - 1) := by
  have hs := reachable_inv hr
  have hlo := hs.lower
  have hup := hs.upper
  have hstep : s.currentState ≠ (s.history.length : Int) - 1 →
      ∃ t, redo s = some t ∧ t.currentState = s.currentState + 1 ∧
        arrayGet s.history (s.currentState + 1) = some t.shapes ∧
        t.history = s.history := by
    intro h
    obtain ⟨snap, hsnap⟩ := arrayGet_of_lt s.history (s.currentState + 1) (by omega) (by omega)
    exact ⟨_, redo_lt s snap (by omega) hsnap, by simp, by simpa using hsnap, by simp⟩
  refine ⟨fun h => redo_ge s (by omega), hstep, ?_, fun h => redo_ge s (by omega)⟩
  intro h
  by_contra hne
  obtain ⟨t, ht, hc, _, _⟩ := hstep hne
  rw [h] at ht
  have := congrArg HotSpotManager.currentState (Option.some.inj ht)
  omega

/-- Witness of C7: in the reachable state `afterUndoArmed` the pointer is 1 in a log of
three snapshots, and `redo` moves it to 2. -/
theorem redo_noop_iff_at_end_witness :
    afterUndoArmed.currentState = 1 ∧ afterUndoArmed.history.length = 3 ∧
    ((afterUndoArmed.currentState = (afterUndoArmed.history.length : Int) - 1 →
        redo afterUndoArmed = some afterUndoArmed) ∧
      (afterUndoArmed.currentState ≠ (afterUndoArmed.history.length : Int) - 1 →
        ∃ t, redo afterUndoArmed = some t ∧ t.currentState = afterUndoArmed.currentState + 1 ∧
          arrayGet afterUndoArmed.history (afterUndoArmed.currentState + 1) = some t.shapes ∧
          t.history = afterUndoArmed.history) ∧
      (redo afterUndoArmed = some afterUndoArmed ↔
        afterUndoArmed.currentState = (afterUndoArmed.history.length : Int) - 1)) :=
  ⟨afterUndoArmed_fields.2.2.1, by rw [afterUndoArmed_fields.2.1]; rfl,
    redo_noop_iff_at_end afterUndoArmed (reachable_sessionAfter _)⟩

/-- C8: for a placement with finite offsets and a finite non-zero `imageScale`, in
exact arithmetic, mapping a finite image-space value to the screen as `drawShape` does
(`p * imageScale + offset`) and back as `startDrawing`, `draw` and `stopDrawing` do
(`(v - offset) / imageScale`) returns it, on both axes, and so does the composition in
the other order.  In particular the start point `drawShape` computes for a shape whose
start was recorded by `startDrawing` is the canvas position of the pointer-down. -/
theorem screen_image_inverse (s : HotSpotManager) (ox oy sc : ℚ)
    (hX : s.imageOffsetX = JSNum.fin ox) (hY : s.imageOffsetY = JSNum.fin oy)
    (hS : s.imageScale = JSNum.fin sc) (hsc : sc ≠ 0) :
    (∀ p : ℚ,
      screenToImage (imageToScreen (JSNum.fin p) s.imageOffsetX s.imageScale)
        s.imageOffsetX s.imageScale = JSNum.fin p ∧
      screenToImage (imageToScreen (JSNum.fin p) s.imageOffsetY s.imageScale)
        s.imageOffsetY s.imageScale = JSNum.fin p ∧
      imageToScreen (screenToImage (JSNum.fin p) s.imageOffsetX s.imageScale)
        s.imageOffsetX s.imageScale = JSNum.fin p ∧
      imageToScreen (screenToImage (JSNum.fin p) s.imageOffsetY s.imageScale)
        s.imageOffsetY s.imageScale = JSNum.fin p) ∧
    (∀ (shape : Shape) (px py : ℚ),
      shape.startX = JSNum.fin px → shape.startY = JSNum.fin py →
      screenToImage (drawShapeBox s shape).startX s.imageOffsetX s.imageScale = shape.startX ∧
      screenToImage (drawShapeBox s shape).startY s.imageOffsetY s.imageScale = shape.startY) ∧
    (∀ (e : PointerEvt) (x y : ℚ) (shape : Shape),
      s.drawingEnabled = true → getMousePos s e = { x := JSNum.fin x, y := JSNum.fin y } →
      shape.startX = (startDrawing s e).startX → shape.startY = (startDrawing s e).startY →
      (drawShapeBox (startDrawing s e) shape).startX = JSNum.fin x ∧
      (drawShapeBox (startDrawing s e) shape).startY = JSNum.fin y) := by
  have h1 : ∀ p o : ℚ, screenToImage (imageToScreen (JSNum.fin p) (JSNum.fin o) (JSNum.fin sc))
      (JSNum.fin o) (JSNum.fin sc) = JSNum.fin p := by
    intro p o
    simp only [screenToImage, imageToScreen, JSNum.fin_mul_fin, JSNum.fin_add_fin,
      JSNum.fin_sub_fin, JSNum.fin_div_fin _ _ hsc]
    congr 1
    field_simp
  have h2 : ∀ p o : ℚ, imageToScreen (screenToImage (JSNum.fin p) (JSNum.fin o) (JSNum.fin sc))
      (JSNum.fin o) (JSNum.fin sc) = JSNum.fin p := by
    intro p o
    simp only [screenToImage, imageToScreen, JSNum.fin_mul_fin, JSNum.fin_add_fin,
      JSNum.fin_sub_fin, JSNum.fin_div_fin _ _ hsc]
    congr 1
    field_simp
  refine ⟨?_, ?_, ?_⟩
  · intro p
    rw [hX, hY, hS]
    exact ⟨h1 p ox, h1 p oy, h2 p ox, h2 p oy⟩
  · intro shape px py hpx hpy
    simp only [drawShapeBox]
    rw [hX, hY, hS, hpx, hpy]
    exact ⟨h1 px ox, h1 py oy⟩
  · intro e x y shape hd hpos hsx hsy
    have hstart : startDrawing s e =
        { s with
          isDrawing := true
          startX := screenToImage (getMousePos s e).x s.imageOffsetX s.imageScale
          startY := screenToImage (getMousePos s e).y s.imageOffsetY s.imageScale } := by
      simp [startDrawing, hd]
    rw [hstart] at hsx hsy ⊢
    simp only [drawShapeBox, hsx, hsy, hpos]
    rw [hX, hY, hS]
    exact ⟨h2 x ox, h2 y oy⟩

/-- Witness of C8: with the 800x300 image on the 400x300 canvas the offsets are
`(0, 75)` and the scale is `1/2`; the image point `(200, 50)` is drawn at the canvas
point `(100, 100)` and maps back to `(200, 50)`. -/
theorem screen_image_inverse_witness :
    imageToScreen (JSNum.fin 200) armed.imageOffsetX armed.imageScale = JSNum.fin 100 ∧
    imageToScreen (JSNum.fin 50) armed.imageOffsetY armed.imageScale = JSNum.fin 100 ∧
    screenToImage (imageToScreen (JSNum.fin 200) armed.imageOffsetX armed.imageScale)
      armed.imageOffsetX armed.imageScale = JSNum.fin 200 ∧
    screenToImage (imageToScreen (JSNum.fin 50) armed.imageOffsetY armed.imageScale)
      armed.imageOffsetY armed.imageScale = JSNum.fin 50 := by
  obtain ⟨hX, hY, hS, _, _, _⟩ := armed_fields
  have h := (screen_image_inverse armed 0 75 (1 / 2) hX hY hS (by norm_num)).1
  refine ⟨?_, ?_, (h 200).1, (h 50).2.1⟩
  · rw [hX, hS]; norm_num [imageToScreen]
  · rw [hY, hS]; norm_num [imageToScreen]

/-- C9 as stated fails on the doubles the code computes with.  An image 220x200 on a
canvas 110x100 has the aspect ratio of the canvas, yet `drawImage` stores the offset
`-2^-47` (about -7.1e-15), not 0: `100 * (220 / 200)` rounds to a double above 110.  For
an image 300x700 on a canvas 400x300 the code's `drawWidth = canvasHeight *
(imageWidth / imageHeight)` is the double 128.57142857142856, one step below the
double 128.57142857142858 that `canvasHeight * imageWidth / imageHeight` gives. -/
theorem letterbox_reference_missed_on_doubles :
    (220 : ℚ) / 200 = 110 / 100 ∧
    (drawImagePlacement64 (JSNum.fin 220) (JSNum.fin 200) (JSNum.fin 110)
      (JSNum.fin 100)).offsetX = JSNum.fin (-1 / 140737488355328) ∧
    (drawImagePlacement64 (JSNum.fin 220) (JSNum.fin 200) (JSNum.fin 110)
      (JSNum.fin 100)).offsetX ≠ JSNum.fin 0 ∧
    (drawImagePlacement64 (JSNum.fin 300) (JSNum.fin 700) (JSNum.fin 400)
      (JSNum.fin 300)).drawWidth = JSNum.fin (1130926245712457 / 8796093022208) ∧
    JSNum.toDouble (JSNum.toDouble (JSNum.fin 300 * JSNum.fin 300) / JSNum.fin 700) =
      JSNum.fin (4523704982849829 / 35184372088832) ∧
    (drawImagePlacement64 (JSNum.fin 300) (JSNum.fin 700) (JSNum.fin 400)
      (JSNum.fin 300)).drawWidth ≠
      JSNum.toDouble (JSNum.toDouble (JSNum.fin 300 * JSNum.fin 300) / JSNum.fin 700) := by
  have href : JSNum.toDouble (JSNum.toDouble (JSNum.fin 300 * JSNum.fin 300) / JSNum.fin 700) =
      JSNum.fin (4523704982849829 / 35184372088832) := by
    rw [double300_product, double300_reference]
  refine ⟨by norm_num, ?_, ?_, ?_, href, ?_⟩
  · rw [drawImagePlacement64_220]
  · rw [drawImagePlacement64_220]
    simp only [ne_eq, JSNum.fin.injEq]
    norm_num
  · rw [drawImagePlacement64_300]
  · rw [drawImagePlacement64_300, href]
    simp only [ne_eq, JSNum.fin.injEq]
    norm_num

/-- C9 as amended: in exact arithmetic, for all positive image and canvas sizes, the
placement `drawImage` computes is the letterbox reference: an image wider than the
canvas aspect gets `drawWidth = canvasWidth`, `drawHeight = canvasWidth * imageHeight
/ imageWidth`, `offsetX = 0`, `offsetY = (canvasHeight - drawHeight) / 2`; any other
image gets `drawHeight = canvasHeight`, `drawWidth = canvasHeight * imageWidth /
imageHeight`, `offsetY = 0`, `offsetX = (canvasWidth - drawWidth) / 2`; the scale is
`drawWidth / imageWidth`; equal aspect ratios give both offsets 0; and `drawImage`
stores the offsets and the scale of that placement in the instance.  Whatever the
rounding of the operations (so also on doubles), one branch gives `drawWidth =
canvasWidth` with `offsetX = 0`, the other `drawHeight = canvasHeight` with `offsetY =
0`, and the scale is the rounded `drawWidth / imageWidth`. -/
theorem placement_eq_letterbox (iw ih cw ch : ℚ) (h1 : 0 < iw) (h2 : 0 < ih) (_h3 : 0 < cw)
    (h4 : 0 < ch) :
    (drawImagePlacement (JSNum.fin iw) (JSNum.fin ih) (JSNum.fin cw) (JSNum.fin ch) =
        letterboxReference iw ih cw ch ∧
      (iw / ih = cw / ch →
        (drawImagePlacement (JSNum.fin iw) (JSNum.fin ih) (JSNum.fin cw) (JSNum.fin ch)).offsetX =
          JSNum.fin 0 ∧
        (drawImagePlacement (JSNum.fin iw) (JSNum.fin ih) (JSNum.fin cw) (JSNum.fin ch)).offsetY =
          JSNum.fin 0) ∧
      (∀ s : HotSpotManager,
        (s.imageWidth : ℚ) = iw → (s.imageHeight : ℚ) = ih →
        (s.canvasWidth : ℚ) = cw → (s.canvasHeight : ℚ) = ch →
        (drawImage s).imageOffsetX = (letterboxReference iw ih cw ch).offsetX ∧
        (drawImage s).imageOffsetY = (letterboxReference iw ih cw ch).offsetY ∧
        (drawImage s).imageScale = (letterboxReference iw ih cw ch).scale)) ∧
    (∀ rounding : JSNum → JSNum,
      (((drawImagePlacementWith rounding (JSNum.fin iw) (JSNum.fin ih) (JSNum.fin cw)
            (JSNum.fin ch)).drawWidth = JSNum.fin cw ∧
          (drawImagePlacementWith rounding (JSNum.fin iw) (JSNum.fin ih) (JSNum.fin cw)
            (JSNum.fin ch)).offsetX = JSNum.fin 0) ∨
        ((drawImagePlacementWith rounding (JSNum.fin iw) (JSNum.fin ih) (JSNum.fin cw)
            (JSNum.fin ch)).drawHeight = JSNum.fin ch ∧
          (drawImagePlacementWith rounding (JSNum.fin iw) (JSNum.fin ih) (JSNum.fin cw)
            (JSNum.fin ch)).offsetY = JSNum.fin 0)) ∧
      (drawImagePlacementWith rounding (JSNum.fin iw) (JSNum.fin ih) (JSNum.fin cw)
          (JSNum.fin ch)).scale =
        rounding ((drawImagePlacementWith rounding (JSNum.fin iw) (JSNum.fin ih) (JSNum.fin cw)
          (JSNum.fin ch)).drawWidth / JSNum.fin iw)) := by
  have href := drawImagePlacement_eq_reference iw ih cw ch h1 h2 h4
  refine ⟨⟨href, ?_, ?_⟩, fun rounding =>
    ⟨drawImagePlacementWith_fit rounding _ _ _ _, drawImagePlacementWith_scale rounding _ _ _ _⟩⟩
  · intro heq
    rw [href]
    unfold letterboxReference
    rw [if_neg (by rw [heq]; exact lt_irrefl _)]
    refine ⟨?_, rfl⟩
    simp only
    congr 1
    have e : ch * iw / ih = ch * (iw / ih) := by ring
    rw [e, heq]
    field_simp
  · intro s e1 e2 e3 e4
    simp only [drawImage, JSNum.ofNat, e1, e2, e3, e4, href]
    exact ⟨trivial, trivial, trivial⟩

/-- Witness of C9 as amended: canvas 400x300 and image 800x300 give `drawWidth` 400,
`drawHeight` 150, offsets `(0, 75)` and scale `1/2`, in exact arithmetic and on doubles
alike; a drag from the screen point `(100, 100)` to `(200, 150)` is recorded as the
rectangle from `(200, 50)` to `(400, 150)` in image space. -/
theorem placement_eq_letterbox_witness :
    drawImagePlacement (JSNum.fin 800) (JSNum.fin 300) (JSNum.fin 400) (JSNum.fin 300) =
      { drawWidth := JSNum.fin 400
        drawHeight := JSNum.fin 150
        offsetX := JSNum.fin 0
        offsetY := JSNum.fin 75
        scale := JSNum.fin (1 / 2) } ∧
    drawImagePlacement64 (JSNum.fin 800) (JSNum.fin 300) (JSNum.fin 400) (JSNum.fin 300) =
      { drawWidth := JSNum.fin 400
        drawHeight := JSNum.fin 150
        offsetX := JSNum.fin 0
        offsetY := JSNum.fin 75
        scale := JSNum.fin (1 / 2) } ∧
    (sessionAfter (Event.imageLoad 800 300 :: gesture 100 100 200 150)).shapes =
      [rect 200 50 400 150 1] := by
  refine ⟨?_, drawImagePlacement64_800, ?_⟩
  · rw [(placement_eq_letterbox 800 300 400 300 (by norm_num) (by norm_num) (by norm_num)
      (by norm_num)).1.1]
    norm_num [letterboxReference]
  · norm_num [sessionAfter, session, gesture, pointerAt, run, handle, constructor, drawImage,
      drawImagePlacement, JSNum.fin_div_fin, enableDrawing, startDrawing, stopDrawing,
      stopDrawingShape, getMousePos, screenToImage, addToHistory, saveShapes, updateButtonStates,
      renumber, renumberFrom, slice0, JSNum.ofNat, rect]

/-- C10 as stated fails on the doubles the code computes with: for an image 220x200 on
a canvas 110x100 `drawImage` computes `drawWidth = 110 + 2^-46` (110.00000000000001),
above the canvas width, the offset `-2^-47` (about -7.1e-15), below 0, and `drawWidth *
imageHeight` differs from `drawHeight * imageWidth = 22000`. -/
theorem placement_bounds_missed_on_doubles :
    (drawImagePlacement64 (JSNum.fin 220) (JSNum.fin 200) (JSNum.fin 110)
      (JSNum.fin 100)).drawWidth = JSNum.fin (7740561859543041 / 70368744177664) ∧
    JSNum.le (drawImagePlacement64 (JSNum.fin 220) (JSNum.fin 200) (JSNum.fin 110)
      (JSNum.fin 100)).drawWidth (JSNum.fin 110) = false ∧
    (drawImagePlacement64 (JSNum.fin 220) (JSNum.fin 200) (JSNum.fin 110)
      (JSNum.fin 100)).offsetX = JSNum.fin (-1 / 140737488355328) ∧
    JSNum.le (JSNum.fin 0) (drawImagePlacement64 (JSNum.fin 220) (JSNum.fin 200)
      (JSNum.fin 110) (JSNum.fin 100)).offsetX = false ∧
    (drawImagePlacement64 (JSNum.fin 220) (JSNum.fin 200) (JSNum.fin 110)
        (JSNum.fin 100)).drawWidth * JSNum.fin 200 ≠
      (drawImagePlacement64 (JSNum.fin 220) (JSNum.fin 200) (JSNum.fin 110)
        (JSNum.fin 100)).drawHeight * JSNum.fin 220 := by
  rw [drawImagePlacement64_220]
  refine ⟨rfl, ?_, rfl, ?_, ?_⟩
  · simp only [JSNum.le_fin_fin]
    norm_num
  · simp only [JSNum.le_fin_fin]
    norm_num
  · simp only [JSNum.fin_mul_fin, ne_eq, JSNum.fin.injEq]
    norm_num

/-- C10 as amended: in exact arithmetic, for all positive image and canvas sizes, the
placement `drawImage` computes has a scale above 0 and offsets at least 0, the drawn
image fits inside the canvas (`drawWidth <= canvasWidth` and `drawHeight <=
canvasHeight`), and the aspect ratio is preserved (`drawWidth * imageHeight =
drawHeight * imageWidth`).  Whatever the rounding of the operations (so also on
doubles), the image is fitted exactly on one axis: `drawWidth = canvasWidth` with
`imageOffsetX = 0`, or `drawHeight = canvasHeight` with `imageOffsetY = 0`. -/
theorem placement_bounds (iw ih cw ch : ℚ) (h1 : 0 < iw) (h2 : 0 < ih) (h3 : 0 < cw)
    (h4 : 0 < ch) :
    (JSNum.lt (JSNum.fin 0)
        (drawImagePlacement (JSNum.fin iw) (JSNum.fin ih) (JSNum.fin cw) (JSNum.fin ch)).scale
          = true ∧
      JSNum.le (JSNum.fin 0)
        (drawImagePlacement (JSNum.fin iw) (JSNum.fin ih) (JSNum.fin cw) (JSNum.fin ch)).offsetX
          = true ∧
      JSNum.le (JSNum.fin 0)
        (drawImagePlacement (JSNum.fin iw) (JSNum.fin ih) (JSNum.fin cw) (JSNum.fin ch)).offsetY
          = true ∧
      JSNum.le
        (drawImagePlacement (JSNum.fin iw) (JSNum.fin ih) (JSNum.fin cw) (JSNum.fin ch)).drawWidth
        (JSNum.fin cw) = true ∧
      JSNum.le
        (drawImagePlacement (JSNum.fin iw) (JSNum.fin ih) (JSNum.fin cw) (JSNum.fin ch)).drawHeight
        (JSNum.fin ch) = true ∧
      (drawImagePlacement (JSNum.fin iw) (JSNum.fin ih) (JSNum.fin cw) (JSNum.fin ch)).drawWidth *
          JSNum.fin ih =
        (drawImagePlacement (JSNum.fin iw) (JSNum.fin ih) (JSNum.fin cw)
          (JSNum.fin ch)).drawHeight * JSNum.fin iw) ∧
    (∀ rounding : JSNum → JSNum,
      ((drawImagePlacementWith rounding (JSNum.fin iw) (JSNum.fin ih) (JSNum.fin cw)
          (JSNum.fin ch)).drawWidth = JSNum.fin cw ∧
        (drawImagePlacementWith rounding (JSNum.fin iw) (JSNum.fin ih) (JSNum.fin cw)
          (JSNum.fin ch)).offsetX = JSNum.fin 0) ∨
      ((drawImagePlacementWith rounding (JSNum.fin iw) (JSNum.fin ih) (JSNum.fin cw)
          (JSNum.fin ch)).drawHeight = JSNum.fin ch ∧
        (drawImagePlacementWith rounding (JSNum.fin iw) (JSNum.fin ih) (JSNum.fin cw)
          (JSNum.fin ch)).offsetY = JSNum.fin 0)) := by
  refine ⟨?_, fun rounding => drawImagePlacementWith_fit rounding _ _ _ _⟩
  rw [drawImagePlacement_eq_reference iw ih cw ch h1 h2 h4]
  unfold letterboxReference
  split
  · rename_i hgt
    have hlt : cw * ih < iw * ch := (div_lt_div_iff₀ h4 h2).mp hgt
    have hfit : cw * ih / iw ≤ ch := by
      rw [div_le_iff₀ h1]; linarith
    simp only [JSNum.lt_fin_fin, JSNum.le_fin_fin, JSNum.fin_mul_fin, decide_eq_true_eq]
    refine ⟨div_pos h3 h1, le_refl _, ?_, le_refl _, hfit, ?_⟩
    · linarith
    · congr 1
      field_simp
  · rename_i hgt
    have hle : iw * ch ≤ cw * ih := (div_le_div_iff₀ h2 h4).mp (not_lt.mp hgt)
    have hfit : ch * iw / ih ≤ cw := by
      rw [div_le_iff₀ h2]; linarith
    simp only [JSNum.lt_fin_fin, JSNum.le_fin_fin, JSNum.fin_mul_fin, decide_eq_true_eq]
    refine ⟨?_, ?_, le_refl _, hfit, le_refl _, ?_⟩
    · exact div_pos (div_pos (mul_pos h4 h1) h2) h1
    · linarith
    · congr 1
      field_simp

/-- Witness of C10 as amended: a 300x800 image on a 400x300 canvas is drawn 225/2 wide
and 300 high with offsets `(575/4, 0)` and scale `3/8`, inside the canvas. -/
theorem placement_bounds_witness :
    drawImagePlacement (JSNum.fin 300) (JSNum.fin 800) (JSNum.fin 400) (JSNum.fin 300) =
      { drawWidth := JSNum.fin (225 / 2)
        drawHeight := JSNum.fin 300
        offsetX := JSNum.fin (575 / 4)
        offsetY := JSNum.fin 0
        scale := JSNum.fin (3 / 8) } ∧
    JSNum.lt (JSNum.fin 0)
      (drawImagePlacement (JSNum.fin 300) (JSNum.fin 800) (JSNum.fin 400) (JSNum.fin 300)).scale
        = true ∧
    JSNum.le
      (drawImagePlacement (JSNum.fin 300) (JSNum.fin 800) (JSNum.fin 400)
        (JSNum.fin 300)).drawWidth
      (JSNum.fin 400) = true := by
  have h := placement_bounds 300 800 400 300 (by norm_num) (by norm_num) (by norm_num)
    (by norm_num)
  refine ⟨?_, h.1.1, h.1.2.2.2.1⟩
  norm_num [drawImagePlacement, JSNum.fin_div_fin]

/-- C11 as stated fails: an 800x600 image on a 400x300 canvas has the aspect ratio of
the canvas, and `drawImage` computes both offsets as 0, not exactly one of them, in
exact arithmetic and on doubles alike. -/
theorem both_offsets_zero_at_equal_aspect :
    ((drawImagePlacement (JSNum.fin 800) (JSNum.fin 600) (JSNum.fin 400)
        (JSNum.fin 300)).offsetX = JSNum.fin 0 ∧
      (drawImagePlacement (JSNum.fin 800) (JSNum.fin 600) (JSNum.fin 400)
        (JSNum.fin 300)).offsetY = JSNum.fin 0) ∧
    (drawImagePlacement64 (JSNum.fin 800) (JSNum.fin 600) (JSNum.fin 400)
      (JSNum.fin 300)).offsetX = JSNum.fin 0 ∧
    (drawImagePlacement64 (JSNum.fin 800) (JSNum.fin 600) (JSNum.fin 400)
      (JSNum.fin 300)).offsetY = JSNum.fin 0 := by
  refine ⟨?_, ?_, ?_⟩
  · norm_num [drawImagePlacement, JSNum.fin_div_fin]
  · rw [drawImagePlacement64_86]
  · rw [drawImagePlacement64_86]

/-- C11 as amended: at least one of the two offsets `drawImage` computes is zero.  This
holds whatever the rounding of the operations: on the doubles the engine computes, in
exact arithmetic, and for the offsets `drawImage` stores in the instance. -/
theorem offsets_zero (rounding : JSNum → JSNum) (iw ih cw ch : JSNum) (s : HotSpotManager) :
    ((drawImagePlacementWith rounding iw ih cw ch).offsetX = JSNum.fin 0 ∨
      (drawImagePlacementWith rounding iw ih cw ch).offsetY = JSNum.fin 0) ∧
    ((drawImagePlacement64 iw ih cw ch).offsetX = JSNum.fin 0 ∨
      (drawImagePlacement64 iw ih cw ch).offsetY = JSNum.fin 0) ∧
    ((drawImagePlacement iw ih cw ch).offsetX = JSNum.fin 0 ∨
      (drawImagePlacement iw ih cw ch).offsetY = JSNum.fin 0) ∧
    ((drawImage s).imageOffsetX = JSNum.fin 0 ∨ (drawImage s).imageOffsetY = JSNum.fin 0) := by
  have key : ∀ (r : JSNum → JSNum) (a b c d : JSNum),
      (drawImagePlacementWith r a b c d).offsetX = JSNum.fin 0 ∨
      (drawImagePlacementWith r a b c d).offsetY = JSNum.fin 0 := by
    intro r a b c d
    rcases drawImagePlacementWith_fit r a b c d with h | h
    · exact Or.inl h.2
    · exact Or.inr h.2
  refine ⟨key rounding iw ih cw ch, key JSNum.toDouble iw ih cw ch, ?_, ?_⟩
  · rw [← drawImagePlacementWith_exact]
    exact key _ iw ih cw ch
  · have h := key (fun v => v) (JSNum.ofNat s.imageWidth) (JSNum.ofNat s.imageHeight)
      (JSNum.ofNat s.canvasWidth) (JSNum.ofNat s.canvasHeight)
    rw [drawImagePlacementWith_exact] at h
    exact h

/-- Witness of C11 as amended: on doubles a 220x200 image on a 110x100 canvas gets the
offsets `(-2^-47, 0)`: the second is zero; the fresh instance of the session, whose
image is 0x0, stores the offsets `(NaN, 0)`. -/
theorem offsets_zero_witness :
    (drawImagePlacement64 (JSNum.fin 220) (JSNum.fin 200) (JSNum.fin 110)
      (JSNum.fin 100)).offsetX = JSNum.fin (-1 / 140737488355328) ∧
    (drawImagePlacement64 (JSNum.fin 220) (JSNum.fin 200) (JSNum.fin 110)
      (JSNum.fin 100)).offsetY = JSNum.fin 0 ∧
    ((drawImagePlacement64 (JSNum.fin 220) (JSNum.fin 200) (JSNum.fin 110)
        (JSNum.fin 100)).offsetX = JSNum.fin 0 ∨
      (drawImagePlacement64 (JSNum.fin 220) (JSNum.fin 200) (JSNum.fin 110)
        (JSNum.fin 100)).offsetY = JSNum.fin 0) ∧
    ((drawImage session).imageOffsetX = JSNum.fin 0 ∨
      (drawImage session).imageOffsetY = JSNum.fin 0) :=
  ⟨by rw [drawImagePlacement64_220], by rw [drawImagePlacement64_220],
    (offsets_zero JSNum.toDouble (JSNum.fin 220) (JSNum.fin 200) (JSNum.fin 110)
      (JSNum.fin 100) session).2.1,
    (offsets_zero JSNum.toDouble (JSNum.fin 220) (JSNum.fin 200) (JSNum.fin 110)
      (JSNum.fin 100) session).2.2.2⟩

/-- C12 as stated fails: on a fresh instance the image is 0x0, yet `drawImage` runs
to the end: it overwrites `imageOffsetX` (0 before) and `imageScale` (1 before) with
`NaN`, and in the session where one rectangle was dragged with no image loaded it
draws that rectangle. -/
theorem drawImage_stores_placement_on_zero_size :
    session.imageWidth = 0 ∧ session.imageHeight = 0 ∧
    session.imageOffsetX = JSNum.fin 0 ∧ session.imageScale = JSNum.fin 1 ∧
    (drawImage session).imageOffsetX = JSNum.nan ∧
    (drawImage session).imageScale = JSNum.nan ∧
    noImageGesture.imageWidth = 0 ∧ noImageGesture.imageHeight = 0 ∧
    (drawImage noImageGesture).painted = [rect 100 100 200 150 1] := by
  obtain ⟨a, b, c, d, e, f⟩ := session_drawImage
  obtain ⟨g, h, i, _⟩ := noImageGesture_fields
  exact ⟨a, b, c, d, e, f, g, h, i⟩

/-- C12 as amended: `drawImage` makes no check of the sizes: in every state it stores
the offsets and the scale its arithmetic yields and draws every shape of
`this.shapes`.  With no image loaded (0x0) on a canvas of positive size it stores
`imageOffsetX = NaN`, `imageOffsetY = 0` and `imageScale = NaN`; with an image of
positive size on a canvas of width 0 or of height 0 (the other canvas side positive)
it stores `imageScale = 0`. -/
theorem drawImage_without_size_check (s : HotSpotManager) :
    (drawImage s).painted = s.shapes ∧
    (s.imageWidth = 0 → s.imageHeight = 0 → 0 < s.canvasHeight →
      (drawImage s).imageOffsetX = JSNum.nan ∧ (drawImage s).imageOffsetY = JSNum.fin 0 ∧
      (drawImage s).imageScale = JSNum.nan) ∧
    (0 < s.imageWidth → 0 < s.imageHeight → s.canvasWidth = 0 → 0 < s.canvasHeight →
      (drawImage s).imageOffsetX = JSNum.fin 0 ∧
      (drawImage s).imageOffsetY = JSNum.fin ((s.canvasHeight : ℚ) / 2) ∧
      (drawImage s).imageScale = JSNum.fin 0) ∧
    (0 < s.imageWidth → 0 < s.imageHeight → 0 < s.canvasWidth → s.canvasHeight = 0 →
      (drawImage s).imageOffsetX = JSNum.fin ((s.canvasWidth : ℚ) / 2) ∧
      (drawImage s).imageOffsetY = JSNum.fin 0 ∧
      (drawImage s).imageScale = JSNum.fin 0) := by
  refine ⟨rfl, ?_, ?_, ?_⟩
  · intro h1 h2 h4
    have h := drawImagePlacement_no_image (s.canvasWidth : ℚ) (s.canvasHeight : ℚ)
      (by exact_mod_cast h4)
    simp only [drawImage, JSNum.ofNat, h1, h2, Nat.cast_zero, h]
    exact ⟨trivial, trivial, trivial⟩
  · intro h1 h2 h3 h4
    have h := drawImagePlacement_canvas_width_zero (s.imageWidth : ℚ) (s.imageHeight : ℚ)
      (s.canvasHeight : ℚ) (by exact_mod_cast h1) (by exact_mod_cast h2) (by exact_mod_cast h4)
    simp only [drawImage, JSNum.ofNat, h3, Nat.cast_zero, h]
    exact ⟨trivial, trivial, trivial⟩
  · intro h1 h2 h3 h4
    have h := drawImagePlacement_canvas_height_zero (s.imageWidth : ℚ) (s.imageHeight : ℚ)
      (s.canvasWidth : ℚ) (by exact_mod_cast h1) (by exact_mod_cast h2) (by exact_mod_cast h3)
    simp only [drawImage, JSNum.ofNat, h4, Nat.cast_zero, h]
    exact ⟨trivial, trivial, trivial⟩

/-- Witness of C12 as amended: the session in which one rectangle was dragged with no
image loaded has image size 0x0 on the 400x300 canvas; `drawImage` there stores `NaN`,
0, `NaN` and draws the rectangle. -/
theorem drawImage_without_size_check_witness :
    (drawImage noImageGesture).painted = [rect 100 100 200 150 1] ∧
    (drawImage noImageGesture).imageOffsetX = JSNum.nan ∧
    (drawImage noImageGesture).imageOffsetY = JSNum.fin 0 ∧
    (drawImage noImageGesture).imageScale = JSNum.nan := by
  obtain ⟨h1, h2, h3, _⟩ := noImageGesture_fields
  have h := drawImage_without_size_check noImageGesture
  refine ⟨?_, h.2.1 h1 h2 (by decide)⟩
  rw [h.1, h3]

/-- C13: in every reachable state, `stopDrawing` changes nothing when `drawingEnabled`
or `isDrawing` is false; otherwise, with `n` the length of the active list, the active
list becomes the old list followed by one shape whose type is `selectedShape`, whose
start is the recorded `startX`, `startY`, whose end is the pointer position mapped to
image space and whose index is `n + 1`; that list is the snapshot under the new
pointer (the old pointer plus one) in `history`; and `drawingEnabled` and `isDrawing`
are false afterwards.  The pointer position is the client position less the corner of
the canvas's bounding box, times the canvas pixels per bounding-box pixel (lines
97-103); image space is that position less the stored offset, over the stored scale
(lines 139-140). -/
theorem gesture_end_reference (s : HotSpotManager) (hr : Reachable s) (e : PointerEvt) :
    ((s.drawingEnabled = false ∨ s.isDrawing = false) → stopDrawing s e = s) ∧
    (s.drawingEnabled = true → s.isDrawing = true →
      (stopDrawing s e).shapes = s.shapes ++
        [{ type := s.selectedShape
           startX := s.startX
           startY := s.startY
           endX := ((e.clientX - e.rectLeft) * (JSNum.ofNat s.canvasWidth / e.rectWidth) -
             s.imageOffsetX) / s.imageScale
           endY := ((e.clientY - e.rectTop) * (JSNum.ofNat s.canvasHeight / e.rectHeight) -
             s.imageOffsetY) / s.imageScale
           index := s.shapes.length + 1 }] ∧
      arrayGet (stopDrawing s e).history (stopDrawing s e).currentState =
        some (stopDrawing s e).shapes ∧
      (stopDrawing s e).currentState = s.currentState + 1 ∧
      (stopDrawing s e).drawingEnabled = false ∧
      (stopDrawing s e).isDrawing = false) := by
  have hs := reachable_inv hr
  refine ⟨stopDrawing_idle s e, ?_⟩
  intro h1 h2
  have hinv := inv_stopDrawing s e hs
  have hc := stopDrawing_currentState s e hs.nonempty h1 h2
  have hlo := hs.lower
  refine ⟨stopDrawing_shapes s e h1 h2, hinv.active (by omega), hc, ?_, ?_⟩
  · rw [stopDrawing_active s e h1 h2]; rfl
  · rw [stopDrawing_active s e h1 h2]; rfl

/-- Witness of C13: in `afterUndoArmed` a drag that started at the image point `(600,
250)` is in progress with the active list `[A]`, offsets `(0, 75)` and scale `1/2`.
The pointer goes up at the client position `(185, 132.5)` over the canvas shown at
half size with its corner at `(10, 20)`: the canvas pixel `(350, 225)`, the image point
`(700, 300)`.  The active list becomes `[A, C]` with `C` from `(600, 250)` to `(700,
300)` at index 2, the snapshot under pointer 2, and both flags are false. -/
theorem gesture_end_reference_witness :
    (stopDrawing afterUndoArmed pointerScaled).shapes =
      [rect 200 50 400 150 1, rect 600 250 700 300 2] ∧
    (stopDrawing afterUndoArmed pointerScaled).shapes = afterUndoArmed.shapes ++
      [{ type := afterUndoArmed.selectedShape
         startX := afterUndoArmed.startX
         startY := afterUndoArmed.startY
         endX := ((pointerScaled.clientX - pointerScaled.rectLeft) *
           (JSNum.ofNat afterUndoArmed.canvasWidth / pointerScaled.rectWidth) -
           afterUndoArmed.imageOffsetX) / afterUndoArmed.imageScale
         endY := ((pointerScaled.clientY - pointerScaled.rectTop) *
           (JSNum.ofNat afterUndoArmed.canvasHeight / pointerScaled.rectHeight) -
           afterUndoArmed.imageOffsetY) / afterUndoArmed.imageScale
         index := afterUndoArmed.shapes.length + 1 }] ∧
    arrayGet (stopDrawing afterUndoArmed pointerScaled).history
        (stopDrawing afterUndoArmed pointerScaled).currentState =
      some (stopDrawing afterUndoArmed pointerScaled).shapes ∧
    (stopDrawing afterUndoArmed pointerScaled).currentState =
      afterUndoArmed.currentState + 1 ∧
    (stopDrawing afterUndoArmed pointerScaled).drawingEnabled = false ∧
    (stopDrawing afterUndoArmed pointerScaled).isDrawing = false := by
  obtain ⟨hS, _, _, hD, hI, _⟩ := afterUndoArmed_fields
  refine ⟨?_, (gesture_end_reference afterUndoArmed (reachable_sessionAfter _)
    pointerScaled).2 hD hI⟩
  rw [stopDrawing_shapes _ _ hD hI, hS, afterUndoArmed_pointerScaled]
  rfl

/-- C14: in every reachable state, after a gesture-end commit, after an undo that is
available (`currentState >= 0`) and after a redo that is available (`currentState <
history.length - 1`), the value last written by `saveShapes` is the active shape list,
and that list carries the indices 1..N.  In every reachable state in which something
has been written, the value last written is the active list. -/
theorem last_saved_is_active_list (s : HotSpotManager) (hr : Reachable s) :
    (∀ e : PointerEvt, s.drawingEnabled = true → s.isDrawing = true →
      (stopDrawing s e).savedShapes.getLast? = some (stopDrawing s e).shapes ∧
      indices (stopDrawing s e).shapes = List.range' 1 (stopDrawing s e).shapes.length) ∧
    (0 ≤ s.currentState →
      ∃ t, undo s = some t ∧ t.savedShapes.getLast? = some t.shapes ∧
        indices t.shapes = List.range' 1 t.shapes.length) ∧
    (s.currentState < (s.history.length : Int) - 1 →
      ∃ t, redo s = some t ∧ t.savedShapes.getLast? = some t.shapes ∧
        indices t.shapes = List.range' 1 t.shapes.length) ∧
    (s.savedShapes = [] ∨ s.savedShapes.getLast? = some s.shapes) := by
  have hs := reachable_inv hr
  refine ⟨?_, ?_, ?_, reachable_saved hr⟩
  · intro e h1 h2
    exact ⟨stopDrawing_last s e hs h1 h2,
      (renumber_fixed_iff _).mp (inv_stopDrawing s e hs).numbered⟩
  · intro h
    obtain ⟨t, ht, hl⟩ := undo_last s hs h
    exact ⟨t, ht, hl, (renumber_fixed_iff _).mp (inv_undo s t hs ht).numbered⟩
  · intro h
    obtain ⟨t, ht, hl⟩ := redo_last s hs h
    exact ⟨t, ht, hl, (renumber_fixed_iff _).mp (inv_redo s t hs ht).numbered⟩

/-- Witness of C14: three rectangles committed one at a time leave the persisted index
lists `[1]`, then `[1, 2]`, then `[1, 2, 3]`, and an undo after the third commit
leaves `[1, 2]`; the undo in `afterThree` is the instance of the theorem. -/
theorem last_saved_is_active_list_witness :
    afterOne.savedShapes.getLast?.map indices = some [1] ∧
    afterTwo.savedShapes.getLast?.map indices = some [1, 2] ∧
    afterThree.savedShapes.getLast?.map indices = some [1, 2, 3] ∧
    afterThreeUndo.savedShapes.getLast?.map indices = some [1, 2] ∧
    ∃ t, undo afterThree = some t ∧ t.savedShapes.getLast? = some t.shapes ∧
      indices t.shapes = List.range' 1 t.shapes.length := by
  refine ⟨?_, ?_, ?_, ?_, (last_saved_is_active_list afterThree (reachable_sessionAfter _)).2.1
    (by rw [afterThree_fields.2]; decide)⟩
  · rw [afterOne_saved]; rfl
  · rw [afterTwo_saved]; rfl
  · rw [afterThree_fields.1]; rfl
  · rw [afterThreeUndo_saved]; rfl

/-- C15 as stated fails: the square `squareFlat` on the placement of `armed` has the
screen box `(100, 250)` with width 40 and height 0; its side is 0, the rectangle
stroked and filled has the extents `(0, 0)`, and the extent on the x axis has lost the
sign of the drag: the sign of the width 40 is 1, the sign of the extent 0 is 0. -/
theorem square_extent_loses_sign_at_zero_height :
    drawShapeBox armed squareFlat =
      { startX := JSNum.fin 100, startY := JSNum.fin 250, width := JSNum.fin 40,
        height := JSNum.fin 0 } ∧
    drawShapeSwitch (fun v => v) 5 armed squareFlat =
      some [CanvasCall.strokeRect (JSNum.fin 100) (JSNum.fin 250) (JSNum.fin 0) (JSNum.fin 0),
        CanvasCall.setGlobalAlpha armed.opacity, CanvasCall.setFillStyle "yellow",
        CanvasCall.fillRect (JSNum.fin 100) (JSNum.fin 250) (JSNum.fin 0) (JSNum.fin 0),
        CanvasCall.setGlobalAlpha (JSNum.fin 1), CanvasCall.setStrokeStyle "red",
        CanvasCall.setLineWidth (JSNum.fin 2),
        CanvasCall.beginPath, CanvasCall.moveTo (JSNum.fin 100) (JSNum.fin 250),
        CanvasCall.lineTo (JSNum.fin 100) (JSNum.fin 250), CanvasCall.stroke] ∧
    JSNum.sign (JSNum.fin 40) = JSNum.fin 1 ∧
    JSNum.sign (JSNum.fin 0) = JSNum.fin 0 := by
  obtain ⟨hX, hY, hS, _, _, _⟩ := armed_fields
  have hbox : drawShapeBox armed squareFlat =
      { startX := JSNum.fin 100, startY := JSNum.fin 250, width := JSNum.fin 40,
        height := JSNum.fin 0 } := by
    simp only [drawShapeBox, hX, hY, hS]
    norm_num [squareFlat, imageToScreen]
  refine ⟨hbox, ?_, ?_, ?_⟩
  · have htype : squareFlat.type = "square" := rfl
    have hne : ¬ squareFlat.type = "rectangle" := by rw [htype]; decide
    simp only [drawShapeSwitch, hbox, if_neg hne, if_pos htype, JSNum.abs, JSNum.min, sign_fin,
      JSNum.fin_mul_fin]
    norm_num [ratSign, drawPattern, drawPatternLoop]
  · norm_num [JSNum.sign]
  · norm_num [JSNum.sign]

/-- C15 as amended: for a shape of type `square` whose screen box has the finite start
`(x, y)` and the finite extents `width` and `height` (of either sign), with `side =
min(|width|, |height|)`, the `switch` of `drawShape` (run long enough for the loop of
the pattern to end) strokes the rectangle anchored at `(x, y)` with the signed extents
`(side * sign(width), side * sign(height))` and fills the same rectangle; both
extents have the magnitude `side`; each has the sign of the drag on its axis when
neither `width` nor `height` is zero, and both are 0 when `width` or `height` is
zero. -/
theorem square_extents (sqrt : JSNum → JSNum) (fuel : Nat) (s : HotSpotManager)
    (shape : Shape) (x y width height : ℚ) (htype : shape.type = "square")
    (hbox : drawShapeBox s shape =
      { startX := JSNum.fin x, startY := JSNum.fin y, width := JSNum.fin width,
        height := JSNum.fin height })
    (hfuel : Min.min |width| |height| / 10 < (fuel : ℚ)) :
    (∃ lines, drawShapeSwitch sqrt fuel s shape =
      some ([CanvasCall.strokeRect (JSNum.fin x) (JSNum.fin y)
          (JSNum.fin (Min.min |width| |height| * ratSign width))
          (JSNum.fin (Min.min |width| |height| * ratSign height)),
        CanvasCall.setGlobalAlpha s.opacity, CanvasCall.setFillStyle "yellow",
        CanvasCall.fillRect (JSNum.fin x) (JSNum.fin y)
          (JSNum.fin (Min.min |width| |height| * ratSign width))
          (JSNum.fin (Min.min |width| |height| * ratSign height)),
        CanvasCall.setGlobalAlpha (JSNum.fin 1), CanvasCall.setStrokeStyle "red",
        CanvasCall.setLineWidth (JSNum.fin 2)] ++ lines)) ∧
    |Min.min |width| |height| * ratSign width| = Min.min |width| |height| ∧
    |Min.min |width| |height| * ratSign height| = Min.min |width| |height| ∧
    (width ≠ 0 → height ≠ 0 →
      ratSign (Min.min |width| |height| * ratSign width) = ratSign width ∧
      ratSign (Min.min |width| |height| * ratSign height) = ratSign height) ∧
    (width = 0 ∨ height = 0 →
      Min.min |width| |height| * ratSign width = 0 ∧
      Min.min |width| |height| * ratSign height = 0) := by
  refine ⟨?_, abs_side_mul_ratSign width height, abs_side_mul_ratSign_right width height, ?_,
    ?_⟩
  · have hside : 0 ≤ Min.min |width| |height| := le_min (abs_nonneg _) (abs_nonneg _)
    have hey : Min.min |width| |height| * ratSign height / 10 < (fuel : ℚ) := by
      have h1 : Min.min |width| |height| * ratSign height ≤ Min.min |width| |height| := by
        have := mul_le_mul_of_nonneg_left (ratSign_le_one height) hside
        linarith
      have h2 : Min.min |width| |height| * ratSign height / 10 ≤
          Min.min |width| |height| / 10 := by
        apply div_le_div_of_nonneg_right h1 (by norm_num)
      linarith
    obtain ⟨lines, hl⟩ := drawPattern_fin s.opacity fuel x y
      (Min.min |width| |height| * ratSign width) (Min.min |width| |height| * ratSign height) hey
    refine ⟨lines, ?_⟩
    have hne : ¬ shape.type = "rectangle" := by rw [htype]; decide
    simp only [drawShapeSwitch, hbox, if_neg hne, if_pos htype, JSNum.abs, JSNum.min, sign_fin,
      JSNum.fin_mul_fin, hl]
    rfl
  · intro hw hh
    refine ⟨ratSign_side_mul width height hw hh, ?_⟩
    rw [min_comm]
    exact ratSign_side_mul height width hh hw
  · intro h
    have hside : Min.min |width| |height| = 0 := by
      rcases h with h | h
      · rw [h, abs_zero]
        exact min_eq_left (abs_nonneg _)
      · rw [h, abs_zero]
        exact min_eq_right (abs_nonneg _)
    rw [hside, zero_mul, zero_mul]
    exact ⟨rfl, rfl⟩

/-- Witness of C15 as amended: the square `squareUp` on the placement of `armed` has the screen box
`(100, 250)` with width 40 and height -100; its side is 40 and the rectangle stroked
and filled has the extents `(40, -40)`. -/
theorem square_extents_witness :
    drawShapeBox armed squareUp =
      { startX := JSNum.fin 100, startY := JSNum.fin 250, width := JSNum.fin 40,
        height := JSNum.fin (-100) } ∧
    Min.min |(40 : ℚ)| |(-100 : ℚ)| = 40 ∧
    Min.min |(40 : ℚ)| |(-100 : ℚ)| * ratSign 40 = 40 ∧
    Min.min |(40 : ℚ)| |(-100 : ℚ)| * ratSign (-100) = -40 ∧
    ∃ lines, drawShapeSwitch (fun v => v) 5 armed squareUp =
      some ([CanvasCall.strokeRect (JSNum.fin 100) (JSNum.fin 250)
          (JSNum.fin (Min.min |(40 : ℚ)| |(-100 : ℚ)| * ratSign 40))
          (JSNum.fin (Min.min |(40 : ℚ)| |(-100 : ℚ)| * ratSign (-100))),
        CanvasCall.setGlobalAlpha armed.opacity, CanvasCall.setFillStyle "yellow",
        CanvasCall.fillRect (JSNum.fin 100) (JSNum.fin 250)
          (JSNum.fin (Min.min |(40 : ℚ)| |(-100 : ℚ)| * ratSign 40))
          (JSNum.fin (Min.min |(40 : ℚ)| |(-100 : ℚ)| * ratSign (-100))),
        CanvasCall.setGlobalAlpha (JSNum.fin 1), CanvasCall.setStrokeStyle "red",
        CanvasCall.setLineWidth (JSNum.fin 2)] ++ lines) := by
  obtain ⟨hX, hY, hS, _, _, _⟩ := armed_fields
  have hbox : drawShapeBox armed squareUp =
      { startX := JSNum.fin 100, startY := JSNum.fin 250, width := JSNum.fin 40,
        height := JSNum.fin (-100) } := by
    simp only [drawShapeBox, hX, hY, hS]
    norm_num [squareUp, imageToScreen]
  have hside : Min.min |(40 : ℚ)| |(-100 : ℚ)| = 40 := by
    rw [abs_of_pos (by norm_num), abs_of_neg (by norm_num)]
    norm_num
  refine ⟨hbox, hside, ?_, ?_,
    (square_extents (fun v => v) 5 armed squareUp 100 250 40 (-100) rfl hbox
      (by rw [hside]; norm_num)).1⟩
  · rw [hside]; norm_num [ratSign]
  · rw [hside]; norm_num [ratSign]

/-- C16 as stated fails: on a fresh instance, with no image loaded (image 0x0), a click
on "add hotspot", a pointer-down at `(100, 100)` and a pointer-up at `(200, 150)` add
a rectangle to `this.shapes`, add a snapshot to `history`, move `currentState` from 0
to 1 and write to persistence twice. -/
theorem gesture_before_image_load_commits :
    session.imageWidth = 0 ∧ session.imageHeight = 0 ∧
    session.shapes = [] ∧ session.history = [[]] ∧ session.currentState = 0 ∧
    session.savedShapes = [] ∧
    noImageGesture.imageWidth = 0 ∧ noImageGesture.imageHeight = 0 ∧
    noImageGesture.shapes = [rect 100 100 200 150 1] ∧
    noImageGesture.history = [[], [rect 100 100 200 150 1]] ∧
    noImageGesture.currentState = 1 ∧
    noImageGesture.savedShapes = [[], [rect 100 100 200 150 1]] := by
  obtain ⟨a, b, c, d, e, f, _⟩ := noImageGesture_fields
  exact ⟨rfl, rfl, rfl, rfl, rfl, rfl, a, b, c, d, e, f⟩

/-- C16 as amended: before any image has been loaded the gesture handlers run.  In
every reachable state with image width and height 0, `enableDrawing` followed by a
pointer-down and a pointer-up appends one shape to `this.shapes`, whose start and end
are the two pointer positions (client position less the corner of the bounding box,
times the canvas pixels per bounding-box pixel) less the stored offset, over the stored
scale; that list is the snapshot under the pointer, which has advanced by one.  The
repaint at the end of `stopDrawing` stores the scale `NaN`, so every screen coordinate
is `NaN`, no loop of `drawShape` runs a round and the repaint returns; the handler has
then written to persistence twice: first the list before the push, then the new list.
Gesture start, move and end are no-ops while `drawingEnabled` is false. -/
theorem gesture_without_image_commits (s : HotSpotManager) (hr : Reachable s)
    (hw : s.imageWidth = 0) (hh : s.imageHeight = 0) (e1 e2 : PointerEvt)
    (sqrt : JSNum → JSNum) (fuel : Nat) :
    ((stopDrawing (startDrawing (enableDrawing s) e1) e2).shapes = s.shapes ++
        [{ type := s.selectedShape
           startX := ((e1.clientX - e1.rectLeft) * (JSNum.ofNat s.canvasWidth / e1.rectWidth) -
             s.imageOffsetX) / s.imageScale
           startY := ((e1.clientY - e1.rectTop) * (JSNum.ofNat s.canvasHeight / e1.rectHeight) -
             s.imageOffsetY) / s.imageScale
           endX := ((e2.clientX - e2.rectLeft) * (JSNum.ofNat s.canvasWidth / e2.rectWidth) -
             s.imageOffsetX) / s.imageScale
           endY := ((e2.clientY - e2.rectTop) * (JSNum.ofNat s.canvasHeight / e2.rectHeight) -
             s.imageOffsetY) / s.imageScale
           index := s.shapes.length + 1 }] ∧
      (stopDrawing (startDrawing (enableDrawing s) e1) e2).currentState = s.currentState + 1 ∧
      arrayGet (stopDrawing (startDrawing (enableDrawing s) e1) e2).history
          (stopDrawing (startDrawing (enableDrawing s) e1) e2).currentState =
        some (stopDrawing (startDrawing (enableDrawing s) e1) e2).shapes ∧
      (stopDrawing (startDrawing (enableDrawing s) e1) e2).imageScale = JSNum.nan ∧
      (∃ calls, drawShapesCalls sqrt fuel (stopDrawing (startDrawing (enableDrawing s) e1) e2)
        (stopDrawing (startDrawing (enableDrawing s) e1) e2).shapes = some calls) ∧
      (stopDrawing (startDrawing (enableDrawing s) e1) e2).savedShapes =
        s.savedShapes ++
          [s.shapes, (stopDrawing (startDrawing (enableDrawing s) e1) e2).shapes]) ∧
    (s.drawingEnabled = false →
      startDrawing s e1 = s ∧ draw s e1 = s ∧ stopDrawing s e1 = s) := by
  have hu : startDrawing (enableDrawing s) e1 =
      { s with
        drawingEnabled := true
        isDrawing := true
        startX := screenToImage (getMousePos s e1).x s.imageOffsetX s.imageScale
        startY := screenToImage (getMousePos s e1).y s.imageOffsetY s.imageScale } := by
    simp [startDrawing, enableDrawing, getMousePos]
  have hru : Reachable (startDrawing (enableDrawing s) e1) :=
    Reachable.step (Event.pointerdown e1) (Reachable.step Event.addHotspotClick hr rfl) rfl
  have hinv := reachable_inv hru
  have hnum := (reachable_inv hr).numbered
  have hd : (startDrawing (enableDrawing s) e1).drawingEnabled = true := by rw [hu]
  have hi : (startDrawing (enableDrawing s) e1).isDrawing = true := by rw [hu]
  have hw1 : (startDrawing (enableDrawing s) e1).imageWidth = 0 := by rw [hu]; exact hw
  have hh1 : (startDrawing (enableDrawing s) e1).imageHeight = 0 := by rw [hu]; exact hh
  have hlo := hinv.lower
  have hc := stopDrawing_currentState _ e2 hinv.nonempty hd hi
  have hscale := stopDrawing_imageScale _ e2 hd hi hw1 hh1
  have hshapes : (stopDrawing (startDrawing (enableDrawing s) e1) e2).shapes =
      s.shapes ++ [stopDrawingShape (startDrawing (enableDrawing s) e1) e2] := by
    rw [stopDrawing_shapes _ e2 hd hi, hu]
  refine ⟨⟨?_, ?_, ?_, hscale, drawShapesCalls_nan sqrt fuel _ hscale _, ?_⟩, ?_⟩
  · rw [hshapes, hu]
    rfl
  · rw [hc, hu]
  · exact (inv_stopDrawing _ e2 hinv).active (by omega)
  · have hnew := renumber_append_last s.shapes
      (stopDrawingShape (startDrawing (enableDrawing s) e1) e2) hnum (by rw [hu]; rfl)
    rw [hshapes, stopDrawing_savedShapes _ e2 hd hi]
    have e3 : (startDrawing (enableDrawing s) e1).shapes = s.shapes := by rw [hu]
    have e4 : (startDrawing (enableDrawing s) e1).savedShapes = s.savedShapes := by rw [hu]
    rw [e3, e4, hnum, hnew]
  · intro h
    refine ⟨?_, ?_, stopDrawing_idle s e1 (Or.inl h)⟩
    · simp [startDrawing, h]
    · simp [draw, h]

/-- Witness of C16 as amended, on the fresh instance with no image loaded: a
pointer-down at `(100, 100)` and a pointer-up at the client position `(185, 132.5)`
over the canvas shown at half size with its corner at `(10, 20)`, the canvas pixel
`(350, 225)`, add the rectangle from `(100, 100)` to `(350, 225)`; the log of writes
is `[[], [that rectangle]]`. -/
theorem gesture_without_image_commits_witness :
    session.imageWidth = 0 ∧ session.imageHeight = 0 ∧
    (stopDrawing (startDrawing (enableDrawing session) (pointerAt 100 100))
        pointerScaled).shapes = [rect 100 100 350 225 1] ∧
    (stopDrawing (startDrawing (enableDrawing session) (pointerAt 100 100))
        pointerScaled).currentState = session.currentState + 1 ∧
    (stopDrawing (startDrawing (enableDrawing session) (pointerAt 100 100))
        pointerScaled).imageScale = JSNum.nan ∧
    (∃ calls, drawShapesCalls (fun v => v) 0
      (stopDrawing (startDrawing (enableDrawing session) (pointerAt 100 100)) pointerScaled)
      (stopDrawing (startDrawing (enableDrawing session) (pointerAt 100 100))
        pointerScaled).shapes = some calls) ∧
    (stopDrawing (startDrawing (enableDrawing session) (pointerAt 100 100))
        pointerScaled).savedShapes = [[], [rect 100 100 350 225 1]] := by
  have h := (gesture_without_image_commits session (Reachable.init 400 300 false false) rfl rfl
    (pointerAt 100 100) pointerScaled (fun v => v) 0).1
  have hshape : (stopDrawing (startDrawing (enableDrawing session) (pointerAt 100 100))
      pointerScaled).shapes = [rect 100 100 350 225 1] := by
    rw [h.1]
    norm_num [session, constructor, pointerAt, pointerScaled, rect, JSNum.ofNat,
      JSNum.fin_div_fin]
  refine ⟨rfl, rfl, hshape, h.2.1, h.2.2.2.1, h.2.2.2.2.1, ?_⟩
  rw [h.2.2.2.2.2, hshape]
  rfl

/-- C17 (the code departs from the claim): for a height below zero the loop of
`drawPattern` ends before its first round, so no guide line is drawn.  For the box at
`(100, 200)` with width 50 and height -40 `drawPattern` only fills the rectangle; for
the same box described from its top edge, `(100, 160)` with height 40, it draws the
five guide lines at 160, 170, 180, 190 and 200.  The same holds for the rectangles
`rectUp` and `rectDown` drawn with the placement of `armed`. -/
theorem no_guide_lines_for_negative_height :
    drawPattern (JSNum.fin 1) 10 (JSNum.fin 100) (JSNum.fin 200) (JSNum.fin 50)
        (JSNum.fin (-40)) =
      some [CanvasCall.setGlobalAlpha (JSNum.fin 1), CanvasCall.setFillStyle "yellow",
        CanvasCall.fillRect (JSNum.fin 100) (JSNum.fin 200) (JSNum.fin 50) (JSNum.fin (-40)),
        CanvasCall.setGlobalAlpha (JSNum.fin 1), CanvasCall.setStrokeStyle "red",
        CanvasCall.setLineWidth (JSNum.fin 2)] ∧
    (drawPattern (JSNum.fin 1) 10 (JSNum.fin 100) (JSNum.fin 160) (JSNum.fin 50)
        (JSNum.fin 40)).map moveToHeights =
      some [JSNum.fin 160, JSNum.fin 170, JSNum.fin 180, JSNum.fin 190, JSNum.fin 200] ∧
    (drawShapeSwitch (fun v => v) 10 armed rectUp).map moveToHeights = some [] ∧
    (drawShapeSwitch (fun v => v) 10 armed rectDown).map moveToHeights =
      some [JSNum.fin 160, JSNum.fin 170, JSNum.fin 180, JSNum.fin 190, JSNum.fin 200] := by
  obtain ⟨hX, hY, hS, _, _, _⟩ := armed_fields
  refine ⟨?_, ?_, ?_, ?_⟩
  · norm_num [drawPattern, drawPatternLoop]
  · norm_num [drawPattern, drawPatternLoop, moveToHeights]
    rfl
  · simp only [drawShapeSwitch, drawShapeBox, hX, hY, hS]
    norm_num [rectUp, rect, imageToScreen, drawPattern, drawPatternLoop, moveToHeights]
  · simp only [drawShapeSwitch, drawShapeBox, hX, hY, hS]
    norm_num [rectDown, rect, imageToScreen, drawPattern, drawPatternLoop, moveToHeights]
    rfl

/-- C18 (the code departs from the claim): in `armedDown` the active list is empty and
nothing has been written; at the pointer-up at `(200, 150)` the call
`addToHistory([A])` appends the snapshot `[A]` to the log, but the `saveShapes` call
inside it writes the empty list, the active list before the push; only the second
write, at the end of `stopDrawing`, carries `[A]`. -/
theorem addToHistory_saves_list_before_push :
    armedDown.shapes = [] ∧ armedDown.savedShapes = [] ∧
    stopDrawingShape armedDown (pointerAt 200 150) = rect 200 50 400 150 1 ∧
    (addToHistory armedDown (armedDown.shapes ++
        [stopDrawingShape armedDown (pointerAt 200 150)])).history =
      [[], [rect 200 50 400 150 1]] ∧
    (addToHistory armedDown (armedDown.shapes ++
        [stopDrawingShape armedDown (pointerAt 200 150)])).savedShapes = [[]] ∧
    (stopDrawing armedDown (pointerAt 200 150)).savedShapes =
      [[], [rect 200 50 400 150 1]] := by
  obtain ⟨hS, hW, hH, hC, hD, hI, hN⟩ := armedDown_fields
  have hne : armedDown.history ≠ [] := by rw [hH]; simp
  refine ⟨hS, hW, hN, ?_, ?_, ?_⟩
  · rw [addToHistory_history _ _ hne, hH, hC, hS, hN]
    simp [slice0, renumber, renumberFrom, rect]
  · rw [addToHistory_savedShapes, hW, hS]
    rfl
  · rw [stopDrawing_savedShapes _ _ hD hI, hW, hS, hN]
    simp [renumber, renumberFrom, rect]

/-- C19: every reachable state has a non-empty `history`, `-1 <= currentState <=
history.length - 1`, `this.shapes` equal by value to `history[currentState]` when
`currentState >= 0` and empty when `currentState = -1`; so the reads of `history` in
`undo` and `redo` are inside the array and neither method throws. -/
theorem reachable_consistent (s : HotSpotManager) (hr : Reachable s) :
    s.history ≠ [] ∧
    -1 ≤ s.currentState ∧ s.currentState ≤ (s.history.length : Int) - 1 ∧
    (0 ≤ s.currentState → arrayGet s.history s.currentState = some s.shapes) ∧
    (s.currentState = -1 → s.shapes = []) ∧
    (0 < s.currentState → ∃ snapshot, arrayGet s.history (s.currentState - 1) = some snapshot) ∧
    (s.currentState < (s.history.length : Int) - 1 →
      ∃ snapshot, arrayGet s.history (s.currentState + 1) = some snapshot) ∧
    (∃ t, undo s = some t) ∧ (∃ t, redo s = some t) := by
  have hs := reachable_inv hr
  have hlo := hs.lower
  have hup := hs.upper
  refine ⟨hs.nonempty, hlo, by omega, hs.active, fun h => hs.cleared (by omega), ?_, ?_,
    undo_some s hs, redo_some s hs⟩
  · intro h
    exact arrayGet_of_lt s.history (s.currentState - 1) (by omega) (by omega)
  · intro h
    exact arrayGet_of_lt s.history (s.currentState + 1) (by omega) (by omega)

/-- Witness of C19: the reachable state `afterUndoArmed` has three snapshots, the
pointer at 1 and the active list `[A]`, the snapshot at index 1. -/
theorem reachable_consistent_witness :
    afterUndoArmed.history.length = 3 ∧ afterUndoArmed.currentState = 1 ∧
    afterUndoArmed.shapes = [rect 200 50 400 150 1] ∧
    (afterUndoArmed.history ≠ [] ∧
      -1 ≤ afterUndoArmed.currentState ∧
      afterUndoArmed.currentState ≤ (afterUndoArmed.history.length : Int) - 1 ∧
      (0 ≤ afterUndoArmed.currentState →
        arrayGet afterUndoArmed.history afterUndoArmed.currentState =
          some afterUndoArmed.shapes) ∧
      (afterUndoArmed.currentState = -1 → afterUndoArmed.shapes = []) ∧
      (0 < afterUndoArmed.currentState →
        ∃ snapshot, arrayGet afterUndoArmed.history (afterUndoArmed.currentState - 1) =
          some snapshot) ∧
      (afterUndoArmed.currentState < (afterUndoArmed.history.length : Int) - 1 →
        ∃ snapshot, arrayGet afterUndoArmed.history (afterUndoArmed.currentState + 1) =
          some snapshot) ∧
      (∃ t, undo afterUndoArmed = some t) ∧ (∃ t, redo afterUndoArmed = some t)) :=
  ⟨by rw [afterUndoArmed_fields.2.1]; rfl, afterUndoArmed_fields.2.2.1, afterUndoArmed_fields.1,
    reachable_consistent afterUndoArmed (reachable_sessionAfter _)⟩

end HotSpot
